import Mathlib

/-!
Verification development for the template-preprocessor core:
the state-machine lexer engine (`tokenize`), the block nesting transform
(`nest_block_level_elements`), and the javascript scope minifier
(`find_free_variables`, `generate_varname`, `rename_variables`,
`_validate_javascript`).

The Python source is shallowly embedded: mutable stacks become explicit
state passing, exceptions become an `Except Err` monad, and the unbounded
`while` loops carry a fuel parameter (`Err.outOfFuel` marks a run that did
not finish within the budget, i.e. divergence of the source loop).
-/

namespace TPP

/-- Runtime failures of the embedded code.  `compileException` is the
library's `CompileException` (line, column, path, message); the other
constructors are ordinary Python runtime errors that the source can hit
(`IndexError` from `list[-1]` on an empty list, `KeyError` from a missing
dict key, `NameError` from an undefined variable, `AssertionError`). -/
inductive Err where
  | compileException (line column : Nat) (path : String) (msg : String)
  | indexError
  | keyError (k : String)
  | nameError (n : String)
  | assertionError
  | attributeError
  | outOfFuel
deriving DecidableEq, Repr

/-- Python `\s` character class (py2 `re`): space, tab, newline, carriage
return, form feed, vertical tab. -/
def wsChars : List Char := [' ', '\t', '\n', '\r', '\x0c', '\x0b']

/-- `[a-zA-Z_$]`, the first character of a javascript identifier. -/
def identStartChar (c : Char) : Bool :=
  ('a' ≤ c && c ≤ 'z') || ('A' ≤ c && c ≤ 'Z') || c = '_' || c = '$'

/-- `[a-zA-Z_$0-9]`, a non-first javascript identifier character; also the
class of the negative lookahead `(?![a-zA-Z0-9_$])` after a keyword. -/
def identTailChar (c : Char) : Bool :=
  identStartChar c || ('0' ≤ c && c ≤ '9')

/-- The anchored regular-expression fragments actually used by the
grammars under verification.  Each constructor mirrors one syntactic shape
of the Python patterns; `matchPat` gives its (greedy, non-backtracking)
semantics, which agrees with `re.match` for these patterns because in each
concatenation the starred class is disjoint from what can follow it. -/
inductive Pat where
  /-- a literal character sequence -/
  | lit (s : List Char)
  /-- `\s*` -/
  | wsStar
  /-- `\s+` -/
  | wsPlus
  /-- a single character from a set, e.g. `([;,=...])` -/
  | oneOf (cs : List Char)
  /-- `[^...]+`, greedy -/
  | noneOfPlus (cs : List Char)
  /-- `[...]+`, greedy, e.g. `[0-9.]+` -/
  | ofPlus (cs : List Char)
  /-- `[a-zA-Z_$][a-zA-Z_$0-9]*` -/
  | jsIdent
  /-- `(w1|w2|...)(?![a-zA-Z0-9_$])`: first alternative, in order, that is
  a prefix of the input and whose following character (if any) is not an
  identifier character -/
  | kwAlt (alts : List (List Char))
  /-- `.|\s`: any single character (the dot excludes `\n`, the `\s` branch
  readmits it) -/
  | anyOrWs
  /-- `.`: any single character except `\n` -/
  | dot
  /-- `(?![...])`: zero-width, succeeds iff the next character is absent
  or not in the set -/
  | lookNeg (cs : List Char)
  /-- `(\*(?!/)|[^\*])+`: body of a multiline comment, greedy -/
  | commentBody
  /-- `(\*(?!/))+`: stars not followed by a slash, greedy -/
  | starNFPlus
  /-- `[^...]*`, greedy (can match the empty string) -/
  | noneOfStar (cs : List Char)
  /-- `[...]?`: at most one character of the class -/
  | optOf (cs : List Char)
  /-- concatenation, each piece matched greedily in order -/
  | seq (ps : List Pat)
deriving Repr

/-- First alternative (in declaration order) that is a prefix of the input
and passes the `(?![a-zA-Z0-9_$])` lookahead; returns its length. -/
def matchKwAlt (alts : List (List Char)) (s : List Char) : Option Nat :=
  match alts with
  | [] => none
  | k :: rest =>
      if k.isPrefixOf s ∧
         (s.length = k.length ∨ (s.drop k.length).head?.all (fun c => ¬ identTailChar c)) then
        some k.length
      else
        matchKwAlt rest s

/-- Length of the greedy `(\*(?!/))+` run: stars as long as no slash
follows. -/
def starNFLen : List Char → Nat
  | [] => 0
  | c :: rest =>
      if c = '*' ∧ rest.head? ≠ some '/' then 1 + starNFLen rest
      else 0

/-- Length of the greedy `(\*(?!/)|[^\*])+` body: consume a `*` not
followed by `/`, or any non-`*` character, as long as possible. -/
def commentBodyLen : List Char → Nat
  | [] => 0
  | c :: rest =>
      if c = '*' ∧ rest.head? = some '/' then 0
      else 1 + commentBodyLen rest

mutual

/-- Anchored match of a pattern against the input: number of characters
consumed, or `none`. -/
def matchPat : Pat → List Char → Option Nat
  | .lit l, s => if l.isPrefixOf s then some l.length else none
  | .wsStar, s => some (s.takeWhile (fun c => c ∈ wsChars)).length
  | .wsPlus, s =>
      if (s.takeWhile (fun c => c ∈ wsChars)).length = 0 then none
      else some (s.takeWhile (fun c => c ∈ wsChars)).length
  | .oneOf cs, s =>
      match s with
      | [] => none
      | c :: _ => if c ∈ cs then some 1 else none
  | .noneOfPlus cs, s =>
      if (s.takeWhile (fun c => c ∉ cs)).length = 0 then none
      else some (s.takeWhile (fun c => c ∉ cs)).length
  | .ofPlus cs, s =>
      if (s.takeWhile (fun c => c ∈ cs)).length = 0 then none
      else some (s.takeWhile (fun c => c ∈ cs)).length
  | .jsIdent, s =>
      match s with
      | [] => none
      | c :: rest =>
          if identStartChar c then some (1 + (rest.takeWhile identTailChar).length)
          else none
  | .kwAlt alts, s => matchKwAlt alts s
  | .anyOrWs, s => match s with | [] => none | _ :: _ => some 1
  | .dot, s => match s with | [] => none | c :: _ => if c = '\n' then none else some 1
  | .lookNeg cs, s =>
      match s with
      | [] => some 0
      | c :: _ => if c ∈ cs then none else some 0
  | .commentBody, s =>
      if commentBodyLen s = 0 then none else some (commentBodyLen s)
  | .starNFPlus, s =>
      if starNFLen s = 0 then none else some (starNFLen s)
  | .noneOfStar cs, s => some (s.takeWhile (fun c => c ∉ cs)).length
  | .optOf cs, s =>
      match s with
      | [] => some 0
      | c :: _ => if c ∈ cs then some 1 else some 0
  | .seq ps, s => matchSeq ps s

/-- Greedy concatenation: match each piece in order on the remaining
input, summing the consumed lengths. -/
def matchSeq : List Pat → List Char → Option Nat
  | [], _ => some 0
  | p :: ps, s =>
      match matchPat p s with
      | none => none
      | some n =>
          match matchSeq ps (s.drop n) with
          | none => none
          | some m => some (n + m)

end

/-! ## Lexer engine (`lexer_engine.tokenize`) -/

/-- The actions of the grammar table (`lexer.State.Transition` action
tuples): `Record`, `Shift`, `Push`, `Pop`, `StartToken`, `StopToken`,
`Error`. -/
inductive Action where
  | record (v : Option (List Char))
  | shift
  | push (state : String)
  | pop
  | startToken (name : String)
  | stopToken (name : Option String)
  | error (msg : String)
deriving Repr

/-- The immutable part of a `lexer.Token`: kind name, creation position
(line, column, path), runtime class, and an identity tag standing for the
Python object identity (the minifier's symbol tables and links reference
token objects; the engine itself never reads it). -/
structure TokData where
  name : String
  line : Nat
  column : Nat
  path : String
  cls : String
  id : Nat := 0
deriving Repr

/-- A tree node: either a raw text fragment (a Python `basestring` child)
or a token with ordered children. -/
inductive Node where
  | str (s : List Char)
  | tok (d : TokData) (children : List Node)
deriving Repr

/-- An entry of the open-token stack.  In Python the stack holds live
`Token` objects that are already attached to their parent; here the
children accumulate in the frame and the completed token is attached to
the parent frame when it is popped, which yields the same tree whenever
the started token is eventually stopped. -/
structure Frame where
  d : TokData
  children : List Node
deriving Repr

/-- Class hierarchy used by the `isinstance` dispatch: every node class of
the repository derives from `lexer.Token` (`lexer.py` declares the base;
processors subclass it), so a class is an instance of itself and of
`Token`. -/
def ancestors (c : String) : List String := [c, "Token"]

/-- `isinstance(node, base)` for token classes. -/
def isInst (c base : String) : Bool := base ∈ ancestors c

/-- `any([isinstance(node, cls) for cls in bases])`. -/
def isInstAny (c : String) (bases : List String) : Bool :=
  bases.any (fun b => isInst c b)

/-- A grammar table: ordered rules per named state. -/
def StateTable := List (String × List (Pat × List Action))

/-- `token_stack[-1].append(node)`; `IndexError` on an empty stack. -/
def pushChild (ts : List Frame) (n : Node) : Except Err (List Frame) :=
  match ts with
  | [] => throw .indexError
  | ⟨fd, fcs⟩ :: r => pure (⟨fd, fcs ++ [n]⟩ :: r)

/-- Number of newlines in a shifted chunk. -/
def nlCount (content : List Char) : Nat := (content.filter (fun c => c = '\n')).length

/-- The suffix of the chunk after its last newline (the whole chunk when
it has none) — the value Python's scan loop leaves in `content`. -/
def afterLastNl (content : List Char) : List Char :=
  (content.reverse.takeWhile (fun c => c ≠ '\n')).reverse

/-- Python slice `s[a:b]` (negative indices count from the end, then both
bounds are clamped to the string). -/
def pySlice (s : List Char) (a b : Int) : List Char :=
  let n : Int := s.length
  let fix : Int → Nat := fun i => (if i < 0 then max 0 (n + i) else min i n).toNat
  (s.take (fix b)).drop (fix a)

/-- The `StopToken(kind)` mismatch test: an expected kind is given and
differs from the popped node's kind. -/
def stopMismatch (expected : Option String) (nm : String) : Bool :=
  match expected with
  | some x => nm != x
  | none => false

/-- The value a `Record` action appends: its explicit override when that
is non-empty (Python tests the value for truthiness), else the matched
content. -/
def recordedText (v : Option (List Char)) (content : List Char) : List Char :=
  match v with
  | some l => if l = [] then content else l
  | none => content

/-- Execute one action of a matched rule.  The mutable locals of the
Python loop are threaded positionally: state stack `ss` (head = top),
open-token stack `ts` (head = top), current `line`/`column`, the ghost
counter `shifted` accumulating `Shift` advances, and the action-local
`content`/`count`/`pos`. -/
def execAction (path : String) (s : List Char) (a : Action)
    (ss : List String) (ts : List Frame) (line column shifted : Nat)
    (content : List Char) (count pos : Nat) :
    Except Err (List String × List Frame × Nat × Nat × Nat × List Char × Nat × Nat) :=
  match a with
  | .record v =>
      match pushChild ts (.str (recordedText v content)) with
      | .error ex => .error ex
      | .ok ts2 => .ok (ss, ts2, line, column, shifted, content, count, pos)
  | .shift =>
      pure (ss, ts, line + nlCount content,
            (if nlCount content = 0 then column + content.length
             else 1 + (afterLastNl content).length),
            shifted + count, afterLastNl content, 0, pos + count)
  | .push state => pure (state :: ss, ts, line, column, shifted, content, count, pos)
  | .pop =>
      match ss with
      | [] => throw .indexError
      | _ :: r => pure (r, ts, line, column, shifted, content, count, pos)
  | .startToken nm =>
      pure (ss, ⟨⟨nm, line, column, path, "Token", 0⟩, []⟩ :: ts,
            line, column, shifted, content, count, pos)
  | .stopToken expected =>
      match ts with
      | [] => throw .indexError
      | ⟨fd, fcs⟩ :: r =>
          if stopMismatch expected fd.name then
            throw (.compileException line column path "Token mismatch")
          else
            match r with
            | [] => pure (ss, [], line, column, shifted, content, count, pos)
            | ⟨gd, gcs⟩ :: gs =>
                pure (ss, ⟨gd, gcs ++ [.tok fd fcs]⟩ :: gs,
                      line, column, shifted, content, count, pos)
  | .error msg =>
      throw (.compileException line column path
        (msg ++ "; near: \x27" ++ String.mk (pySlice s ((pos : Int) - 20) ((pos : Int) + 20)) ++ "\x27"))

/-- Execute the action list of a matched rule in order. -/
def execActions (path : String) (s : List Char) (actions : List Action)
    (ss : List String) (ts : List Frame) (line column shifted : Nat)
    (content : List Char) (count pos : Nat) :
    Except Err (List String × List Frame × Nat × Nat × Nat × Nat) :=
  match actions with
  | [] => .ok (ss, ts, line, column, shifted, pos)
  | a :: rest =>
      match execAction path s a ss ts line column shifted content count pos with
      | .error ex => .error ex
      | .ok (ss, ts, line, column, shifted, content, count, pos) =>
          execActions path s rest ss ts line column shifted content count pos

/-- First transition (in declaration order) whose pattern matches the
remaining input, with the match length. -/
def findRule (rules : List (Pat × List Action)) (rest : List Char) :
    Option (Nat × List Action) :=
  match rules with
  | [] => none
  | (p, actions) :: more =>
      match matchPat p rest with
      | some n => some (n, actions)
      | none => findRule more rest

/-- The inner `while position < len(string)` loop of `tokenize` over one
concatenated text run.  When no rule of the active state matches, the
Python loop retries the very same position forever; here that run of the
loop consumes fuel until `outOfFuel`. -/
def textLoop (states : StateTable) (path : String) (s : List Char) :
    Nat → Nat → List String → List Frame → Nat → Nat → Nat →
    Except Err (List String × List Frame × Nat × Nat × Nat)
  | 0, _, _, _, _, _, _ => throw .outOfFuel
  | fuel + 1, pos, ss, ts, line, column, shifted =>
      if pos < s.length then
        match ss with
        | [] => throw .indexError
        | top :: _ =>
            match states.lookup top with
            | none => throw (.keyError top)
            | some rules =>
                match findRule rules (s.drop pos) with
                | none => textLoop states path s fuel pos ss ts line column shifted
                | some (n, actions) =>
                    match execActions path s actions ss ts line column shifted
                        ((s.drop pos).take n) n pos with
                    | .error ex => .error ex
                    | .ok (ss, ts, line, column, shifted, pos) =>
                        textLoop states path s fuel pos ss ts line column shifted
      else
        .ok (ss, ts, line, column, shifted)

/-- Split a maximal run of consecutive raw-string children off the input
(the concatenation step of `tokenize`). -/
def strRun : List Node → (List Char × List Node)
  | .str s :: rest =>
      let (more, rest2) := strRun rest
      (s ++ more, rest2)
  | other => ([], other)

/-- Fold an open frame into the stack below it, repeatedly: the
continuation of `collapse`. -/
def collapseAux : Frame → List Frame → Node
  | f, [] => .tok f.d f.children
  | ⟨fd, fcs⟩, ⟨gd, gcs⟩ :: r => collapseAux ⟨gd, gcs ++ [.tok fd fcs]⟩ r

/-- Rebuild the node of a nested (`classes_to_enter`) parse from its final
token stack: frames still open when the nested call returns were, in
Python, attached to their parents at `StartToken` time, so fold them back
in. -/
def collapse (d : TokData) : List Frame → Node
  | [] => .tok d []
  | f :: r => collapseAux f r

/-- The body of `tokenize`: iterate the input children, lexing text runs
and dispatching non-text children on `classes_to_replace_by_parsed_content`
(continue the same parse inside the child, sharing both stacks) and
`classes_to_enter` (nested parse with a fresh open-token stack but the
same state stack, then keep the child itself).  `line`/`column` are local
to each call (a recursive call starts from the child's position and the
caller resumes with its own); the stacks and the ghost shift counter
thread through and are returned. -/
def nodeLoop (states : StateTable) (replaceCls enterCls : List String) (tfuel : Nat) :
    Nat → List Node → String → List String → List Frame → Nat → Nat → Nat →
    Except Err (List String × List Frame × Nat)
  | 0, _, _, _, _, _, _, _ => throw .outOfFuel
  | _ + 1, [], _, ss, ts, _, _, shifted => .ok (ss, ts, shifted)
  | nfuel + 1, .str s0 :: rest, path, ss, ts, line, column, shifted =>
      match strRun rest with
      | (more, rest2) =>
          match textLoop states path (s0 ++ more) tfuel 0 ss ts line column shifted with
          | .error ex => .error ex
          | .ok (ss, ts, line, column, shifted) =>
              nodeLoop states replaceCls enterCls tfuel nfuel rest2 path ss ts
                line column shifted
  | nfuel + 1, .tok d cs :: rest, path, ss, ts, line, column, shifted =>
      if isInstAny d.cls replaceCls then
        match nodeLoop states replaceCls enterCls tfuel nfuel cs d.path ss ts
            d.line d.column shifted with
        | .error ex => .error ex
        | .ok (ss, ts, shifted) =>
            nodeLoop states replaceCls enterCls tfuel nfuel rest path ss ts
              line column shifted
      else if isInstAny d.cls enterCls then
        match nodeLoop states replaceCls enterCls tfuel nfuel cs d.path ss [⟨d, []⟩]
            d.line d.column shifted with
        | .error ex => .error ex
        | .ok (ss, tsChild, shifted) =>
            match pushChild ts (collapse d tsChild) with
            | .error ex => .error ex
            | .ok ts2 =>
                nodeLoop states replaceCls enterCls tfuel nfuel rest path ss ts2
                  line column shifted
      else
        match pushChild ts (.tok d cs) with
        | .error ex => .error ex
        | .ok ts2 =>
            nodeLoop states replaceCls enterCls tfuel nfuel rest path ss ts2
              line column shifted

/-- Top-level `tokenize(tree, states, classes_to_replace_by_parsed_content,
classes_to_enter)`: run the node loop starting from state stack `[root]`
and token stack `[tree]`, then apply the `_root` balance check
(`"<kind> not terminated"`; note that `token_stack[-1]` on an emptied
stack is a Python `IndexError`). -/
def tokenizeTop (states : StateTable) (replaceCls enterCls : List String)
    (tfuel nfuel : Nat) (d : TokData) (children : List Node) :
    Except Err (TokData × List Node) := do
  let (_, ts, _) ←
    nodeLoop states replaceCls enterCls tfuel nfuel children d.path ["root"] [⟨d, []⟩]
      d.line d.column 0
  match ts with
  | [f] => pure (f.d, f.children)
  | [] => throw .indexError
  | f :: _ :: _ =>
      throw (.compileException f.d.line f.d.column f.d.path (f.d.name ++ " not terminated"))

/-! ## The javascript grammar (`js_processor.__JS_STATES`) -/

/-- The single-quote character. -/
def sqChar : Char := Char.ofNat 39

/-- The backslash character. -/
def bsChar : Char := Char.ofNat 92

/-- The keyword alternation of the `js-keyword` transition, in source
order. -/
def jsKeywordAlts : List (List Char) :=
  ["break", "catch", "const", "continue", "debugger", "default", "delete",
   "do", "else", "enum", "false", "finally", "for", "function", "case",
   "if", "in", "instanceof", "new", "null", "return", "switch", "this",
   "throw", "true", "try", "typeof", "var", "void", "while",
   "with"].map String.toList

/-- The operator character class `[;,=?:|^&=!<>*%~\.\[(+-]`. -/
def jsOpChars : List Char :=
  [';', ',', '=', '?', ':', '|', '^', '&', '=', '!', '<', '>', '*', '%',
   '~', '.', '[', '(', '+', '-']

/-- The `[0-9.]` character class. -/
def digitDotChars : List Char :=
  ['0', '1', '2', '3', '4', '5', '6', '7', '8', '9', '.']

/-- The transitions of the `root` state of `__JS_STATES`, in source
order. -/
def jsRootRules : List (Pat × List Action) :=
  [ (.seq [.wsStar, .lit ['\x7b'], .wsStar], [.startToken "js-scope", .shift]),
       (.seq [.wsStar, .lit ['\x7d'], .wsStar], [.stopToken (some "js-scope"), .shift]),
       (.lit ['/', '*'], [.push "multiline-comment", .shift]),
       (.lit ['/', '/'], [.push "singleline-comment", .shift]),
       (.lit ['"'],
         [.push "double-quoted-string", .startToken "js-double-quoted-string",
          .record none, .shift]),
       (.lit [sqChar],
         [.push "single-quoted-string", .startToken "js-single-quoted-string",
          .record none, .shift]),
       (.kwAlt jsKeywordAlts,
         [.startToken "js-keyword", .record none, .shift, .stopToken none]),
       (.seq [.wsStar, .oneOf jsOpChars, .wsStar],
         [.startToken "js-operator", .record none, .shift, .stopToken none]),
       (.seq [.wsStar, .oneOf [')', ']'], .wsStar],
         [.startToken "js-operator", .record none, .shift, .stopToken none,
          .push "after-varname"]),
       (.jsIdent,
         [.startToken "js-varname", .record none, .shift, .stopToken none,
          .push "after-varname"]),
       (.ofPlus digitDotChars,
         [.startToken "js-number", .record none, .shift, .stopToken none,
          .push "after-varname"]),
       (.wsPlus, [.startToken "js-whitespace", .record none, .shift, .stopToken none]),
       (.seq [.wsStar, .lit ['/'], .lookNeg ['/', '*']],
         [.startToken "js-regex-object", .record none, .shift, .push "regex-object"]),
       (.anyOrWs, [.error "Error in parser #1"]) ]

/-- `js_processor.__JS_STATES`, transition for transition. -/
def jsStates : StateTable :=
  [ ("root", jsRootRules),
    ("double-quoted-string",
     [ (.lit ['"'], [.record none, .pop, .shift, .stopToken none]),
       (.seq [.lit [bsChar], .dot], [.record none, .shift]),
       (.noneOfPlus ['"', bsChar], [.record none, .shift]),
       (.anyOrWs, [.error "Error in parser #2"]) ]),
    ("single-quoted-string",
     [ (.lit [sqChar], [.record none, .pop, .shift, .stopToken none]),
       (.seq [.lit [bsChar], .dot], [.record none, .shift]),
       (.noneOfPlus [sqChar, bsChar], [.record none, .shift]),
       (.anyOrWs, [.error "Error in parser #3"]) ]),
    ("multiline-comment",
     [ (.lit ['*', '/'], [.shift, .pop]),
       (.commentBody, [.shift]),
       (.starNFPlus, [.shift]),
       (.anyOrWs, [.error "Error in parser #4"]) ]),
    ("singleline-comment",
     [ (.lit ['\n'], [.shift, .pop]),
       (.noneOfPlus ['\n'], [.shift]),
       (.anyOrWs, [.error "Error in parser #5"]) ]),
    ("after-varname",
     [ (.seq [.wsStar, .lit ['/'], .lookNeg ['/', '*'], .wsStar],
         [.startToken "js-operator", .record none, .shift, .stopToken none]),
       (.lit ['/', '*'], [.push "multiline-comment", .shift]),
       (.seq [.lit ['/', '/'], .noneOfStar ['\n']], [.shift]),
       (.anyOrWs, [.pop]),
       (.anyOrWs, [.error "Error in parser #6"]) ]),
    ("regex-object",
     [ (.seq [.lit [bsChar], .dot], [.record none, .shift]),
       (.noneOfPlus ['/', bsChar], [.record none, .shift]),
       (.seq [.lit ['/'], .optOf ['a', 'b', 'c', 'd', 'e', 'f', 'g', 'h', 'i',
          'j', 'k', 'l', 'm', 'n', 'o', 'p', 'q', 'r', 's', 't', 'u', 'v',
          'w', 'x', 'y', 'z']],
         [.record none, .shift, .stopToken none, .pop]),
       (.anyOrWs, [.error "Error in parser #7"]) ]) ]

/-- The root token that `compile_javascript_string` builds before calling
`tokenize(tree, __JS_STATES, [Token])`. -/
def jsRootData : TokData := ⟨"root", 1, 1, "", "Token", 0⟩

/-- `tokenize` as invoked by `compile_javascript_string`: replace classes
`[Token]`, no enter classes. -/
def jsTokenize (tfuel nfuel : Nat) (s : List Char) : Except Err (TokData × List Node) :=
  tokenizeTop jsStates ["Token"] [] tfuel nfuel jsRootData [.str s]

/-! ## Javascript node classification and output -/

/-- The runtime classes that `_add_javascript_parser_extensions` patches
onto tokens, selected by token name via `__JS_EXTENSION_MAPPINGS`. -/
inductive JsCls where
  | scope
  | variable
  | keyword
  | whitespace
  | operator
  | number
  | dqString
  | sqString
  | regexLit
  | other
deriving DecidableEq, Repr

/-- `__JS_EXTENSION_MAPPINGS`: the patched class of a token, by name. -/
def jsClsOf (d : TokData) : JsCls :=
  if d.name = "js-scope" then .scope
  else if d.name = "js-varname" then .variable
  else if d.name = "js-keyword" then .keyword
  else if d.name = "js-whitespace" then .whitespace
  else if d.name = "js-operator" then .operator
  else if d.name = "js-number" then .number
  else if d.name = "js-double-quoted-string" then .dqString
  else if d.name = "js-single-quoted-string" then .sqString
  else if d.name = "js-regex-object" then .regexLit
  else .other

/-- Patched class of a node; raw text fragments are not tokens. -/
def nodeJsCls : Node → Option JsCls
  | .str _ => none
  | .tok d _ => some (jsClsOf d)

mutual

/-- `output_as_string` for an unrenamed tree.  Modelled from the spec for
the base `Token.output` (`lexer.py` is not part of the sources): a token
renders the concatenation of its children, text fragments verbatim.
`JavascriptScope.output` (js_processor.py) additionally wraps its children
in literal braces. -/
def rawOut : Node → List Char
  | .str s => s
  | .tok d cs =>
      if jsClsOf d = .scope then '\x7b' :: (rawOutList cs ++ ['\x7d'])
      else rawOutList cs

/-- Concatenated output of a child list. -/
def rawOutList : List Node → List Char
  | [] => []
  | n :: rest => rawOut n ++ rawOutList rest

end

/-- Python `unicode.strip()`. -/
def pyStrip (s : List Char) : List Char :=
  ((s.dropWhile (fun c => c ∈ wsChars)).reverse.dropWhile (fun c => c ∈ wsChars)).reverse

/-- `JavascriptOperator.operator`: the stripped output. -/
def opText (n : Node) : List Char := pyStrip (rawOut n)

/-- `JavascriptKeyword.keyword`: the raw output. -/
def kwText (n : Node) : List Char := rawOut n

/-- Whitespace-token test used by the validator walks. -/
def isWsNode (n : Node) : Bool := nodeJsCls n = some .whitespace

/-- Position of a node for a `CompileException(node, message)`. -/
def nodeErr (n : Node) (msg : String) : Err :=
  match n with
  | .str _ => .compileException 0 0 "" msg
  | .tok d _ => .compileException d.line d.column d.path msg

mutual

/-- `child_nodes_of_class([JavascriptScope])`.  Modelled from the spec:
the validation pass visits every scope (brace-delimited block) of the
document, i.e. every descendant node whose patched class is
`JavascriptScope`, in document order. -/
def scopesIn : Node → List Node
  | .str _ => []
  | .tok d cs =>
      (if jsClsOf d = .scope then [Node.tok d cs] else []) ++ scopesInList cs

/-- Scopes of a forest, in document order. -/
def scopesInList : List Node → List Node
  | [] => []
  | n :: rest => scopesIn n ++ scopesInList rest
end

/-! ## `_validate_javascript` -/

/-- Python list indexing `l[i]` with negative indices counting from the
end; `IndexError` when out of range. -/
def pyGet (l : List Node) (i : Int) : Except Err Node :=
  if 0 ≤ i ∧ i < l.length then
    match l.get? i.toNat with
    | some n => pure n
    | none => throw .indexError
  else if 0 ≤ i + l.length ∧ i < 0 then
    match l.get? (i + l.length).toNat with
    | some n => pure n
    | none => throw .indexError
  else
    throw .indexError

/-- `skip_optional_function_name`: advance over whitespace, then over one
optional variable token. -/
def skipOptFnName (children : List Node) : Nat → Int → Except Err Int
  | 0, _ => throw .outOfFuel
  | fuel + 1, i =>
      if i < (children.length : Int) then do
        let c ← pyGet children i
        if isWsNode c then skipOptFnName children fuel (i + 1)
        else if nodeJsCls c = some .variable then pure (i + 1)
        else pure i
      else pure i

/-- `go_to_open_bracket`: advance over whitespace until a scope or a `(`
operator; anything else is a fatal `Expected opening bracket` error
carrying the position of the node at entry. -/
def goToOpenBracketLoop (children : List Node) (c0 : Node) : Nat → Int → Except Err Int
  | 0, _ => throw .outOfFuel
  | fuel + 1, i =>
      if i < (children.length : Int) then do
        let c ← pyGet children i
        if isWsNode c then goToOpenBracketLoop children c0 fuel (i + 1)
        else if nodeJsCls c = some .scope then pure i
        else if nodeJsCls c = some .operator ∧ opText c = ['('] then pure i
        else throw (nodeErr c0 "Expected opening bracket. Please check your Javascript code.")
      else pure i

/-- `go_to_open_bracket`: looks at the node at entry (for the error
position) and runs the scan loop. -/
def goToOpenBracket (children : List Node) (fuel : Nat) (i : Int) : Except Err Int := do
  let c0 ← pyGet children i
  goToOpenBracketLoop children c0 fuel i

/-- The bracket-matching loop of `skip_parameter_list`. -/
def skipParamLoop (children : List Node) : Nat → Int → List (List Char) → Except Err Int
  | 0, _, _ => throw .outOfFuel
  | fuel + 1, i, stack =>
      if i < (children.length : Int) then
        if stack = [] then pure i
        else do
          let c ← pyGet children i
          let stack :=
            if nodeJsCls c = some .operator then
              if opText c = ['('] ∨ opText c = ['['] then opText c :: stack
              else if opText c = [')'] then
                (match stack with
                 | t :: r => if t = ['('] then r else stack
                 | [] => stack)
              else if opText c = [']'] then
                (match stack with
                 | t :: r => if t = ['['] then r else stack
                 | [] => stack)
              else stack
            else stack
          skipParamLoop children fuel (i + 1) stack
      else pure i

/-- `skip_parameter_list`: asserts the current node is an operator, opens
the stack with it, and scans to the matching close. -/
def skipParamList (children : List Node) (fuel : Nat) (i : Int) : Except Err Int := do
  let c ← pyGet children i
  if nodeJsCls c = some .operator then
    skipParamLoop children fuel (i + 1) [opText c]
  else
    throw .assertionError

/-- `get_last_non_whitespace_token`: last non-whitespace node strictly
before the current one, `none` when the scan stops at index 0. -/
def lastNonWs (children : List Node) : Nat → Option Node
  | 0 => none
  | j + 1 =>
      match children.get? (j + 1) with
      | none => none
      | some c => if isWsNode c then lastNonWs children j else some c

/-- `DjangoTag` test of the validator (by runtime class). -/
def isDjangoTag : Node → Bool
  | .tok d _ => d.cls = "DjangoTag"
  | .str _ => false

/-- The keywords after which no semicolon is required. -/
def noSemiKws : List (List Char) :=
  ["for", "if", "switch", "function", "try", "catch", "while"].map String.toList

/-- `found_missing` message. -/
def msgMissing : String := "Missing semicolon detected. Please check your Javascript code."

/-- Unmatched closing bracket message. -/
def msgUnexpected : String :=
  "Unexpected closing bracket, did not find an opening match. Please check your Javascript code."

/-- Trailing comma message. -/
def msgTrailingComma : String :=
  "Please remove colon at the end of Javascript object (not supported by IE6 and IE7)"

/-- The main statement walk of `_validate_javascript` over one scope,
tracking the single `semi_colon_required` flag.  Faithful quirks: a
number token matches no branch (the flag is unchanged), `is_colon`
compares the stripped text with the empty string, and the keyword branch
re-reads the node after `go_to_open_bracket` (an `IndexError` when the
scan ran off the end). -/
def vLoop (children : List Node) : Nat → Int → Bool → Except Err Unit
  | 0, _, _ => throw .outOfFuel
  | fuel + 1, i, semi =>
      if i < (children.length : Int) then do
        let c ← pyGet children i
        match nodeJsCls c with
        | some .keyword =>
            if kwText c ∈ noSemiKws then do
              if semi then throw (nodeErr c msgMissing)
              let i1 : Int := i + 1
              let i2 ← if kwText c = "function".toList then skipOptFnName children (fuel + 1) i1
                       else pure i1
              let i3 ← goToOpenBracket children (fuel + 1) i2
              let cur ← pyGet children i3
              let i4 ← if nodeJsCls cur = some .operator ∧ opText cur = ['('] then
                         skipParamList children (fuel + 1) i3
                       else pure i3
              vLoop children fuel i4 false
            else if kwText c = "var".toList then do
              let last := if 0 < i then lastNonWs children (i - 1).toNat else none
              match last with
              | none => vLoop children fuel (i + 1) semi
              | some lt =>
                  if nodeJsCls lt = some .operator ∧
                     (opText lt = ['\x7b'] ∨ opText lt = ['\x7d'] ∨ opText lt = [';']) then
                    vLoop children fuel (i + 1) semi
                  else if nodeJsCls lt = some .scope ∨ isDjangoTag lt then
                    vLoop children fuel (i + 1) semi
                  else throw (nodeErr c msgMissing)
            else vLoop children fuel (i + 1) semi
        | some .operator =>
            if pyStrip (rawOut c) = [';'] ∨ pyStrip (rawOut c) = [] then
              vLoop children fuel (i + 1) false
            else if opText c = ['('] ∨ opText c = ['['] then do
              let i2 ← skipParamList children (fuel + 1) i
              vLoop children fuel i2 true
            else if opText c = [')'] ∨ opText c = [']'] then
              throw (nodeErr c msgUnexpected)
            else vLoop children fuel (i + 1) false
        | some .scope => vLoop children fuel (i + 1) false
        | some .variable =>
            if semi then throw (nodeErr c msgMissing)
            else vLoop children fuel (i + 1) true
        | _ => vLoop children fuel (i + 1) semi
      else pure ()

/-- First check of `_validate_javascript`: no comma as the last child of
any scope. -/
def checkTrailingComma (n : Node) : Except Err Unit :=
  match n with
  | .str _ => pure ()
  | .tok _ cs =>
      match cs.getLast? with
      | none => pure ()
      | some lastChild =>
          if nodeJsCls lastChild = some .operator ∧ pyStrip (rawOut lastChild) = [','] then
            throw (nodeErr lastChild msgTrailingComma)
          else pure ()

/-- Second check: the statement walk over one scope. -/
def validateScope (fuel : Nat) (n : Node) : Except Err Unit :=
  match n with
  | .str _ => pure ()
  | .tok _ cs => vLoop cs fuel 0 false

/-- `_validate_javascript(js_node)`: both passes, each over every scope of
the document in order. -/
def validateJs (fuel : Nat) (children : List Node) : Except Err Unit := do
  let scopes := scopesInList children
  for s in scopes do
    checkTrailingComma s
  for s in scopes do
    validateScope fuel s

/-- Tokenize a javascript string and validate it, as
`compile_javascript_string` does before any whitespace compression or
renaming. -/
def jsTokenizeAndValidate (fuel : Nat) (s : List Char) : Except Err Unit := do
  let (_, cs) ← jsTokenize fuel fuel s
  validateJs fuel cs

/-! ## Block nesting transform (`lexer_engine.nest_block_level_elements`) -/

/-- Node data for the nesting transform. -/
structure NData where
  name : String
  line : Nat
  column : Nat
  path : String
  cls : String
deriving Repr

/-- A node of the tree the nesting transform rewrites: `children` is the
primary child list, `extra` holds the dynamically created `children1`,
`children2`, … lists, and `params` the side tree that `process_params`
builds from an opening tag's original children. -/
inductive NNode where
  | str (s : String)
  | tok (d : NData) (children : List NNode) (extra : List (List NNode)) (params : List NNode)
deriving Repr

/-- A frame of the `moving_to_node`/`tags_stack` pair: the node being
built (children accumulate here; in Python the node object is attached to
its destination already at open time, but nothing else is appended to
that destination while the frame is open, so attaching the completed node
at pop time yields the same sequence), the remaining valid marker names
(ending in the required closing name), and whether the destination is the
parent frame (`moving_to_node` was non-empty at open time) or the flat
`tree.children`. -/
structure NFrame where
  d : NData
  children : List NNode
  extra : List (List NNode)
  params : List NNode
  tags : List String
  toParent : Bool

/-- `get_moving_to_list().append(n)`: append to the list selected by the
global `list_index` (index 0 is `children`, index k ≥ 1 is `children<k>`,
created on demand by `setattr`). -/
def appendCur (f : NFrame) (li : Nat) (n : NNode) : NFrame :=
  if li = 0 then { f with children := f.children ++ [n] }
  else
    let ex := f.extra ++ List.replicate (li - f.extra.length) []
    { f with extra := ex.set (li - 1) ((ex.getD (li - 1) []) ++ [n]) }

mutual

/-- `nest_block_level_elements(tree, mappings, _classes, check)` on one
node (the default `check`, i.e. the node name, is used).  Only
`tree.children` is rewritten. -/
def nestTok (mappings : List (String × (List String × String))) (classes : List String) :
    Nat → NNode → Except Err NNode
  | 0, _ => throw .outOfFuel
  | _ + 1, .str _ => throw .attributeError
  | fuel + 1, .tok d cs ex ps => do
      let cs2 ← nestSeq mappings classes fuel cs [] [] 0
      pure (.tok d cs2 ex ps)

/-- The scan over `tree.children[:]`: `frames` is the open-block stack
(head = innermost), `kept` the children that stay in the flat list, `li`
the global `list_index` (the source resets it only in the interior-marker
branch, which always dies first — see below — and the dead local
`child_list_index = 0` of the opening branch never touches it). -/
def nestSeq (mappings : List (String × (List String × String))) (classes : List String) :
    Nat → List NNode → List NFrame → List NNode → Nat → Except Err (List NNode)
  | 0, _, _, _, _ => throw .outOfFuel
  | _ + 1, [], frames, kept, _ =>
      match frames with
      | [] => pure kept
      | f :: _ =>
          throw (.compileException f.d.line f.d.column f.d.path
            (f.d.cls ++ " tag not terminated"))
  | fuel + 1, .str s :: rest, frames, kept, li =>
      match frames with
      | _ :: _ =>
          -- moving branch: `nest_block_level_elements(c, ...)` on a raw
          -- string dereferences `c.children` — an `AttributeError`.
          throw .attributeError
      | [] => nestSeq mappings classes fuel rest frames (kept ++ [.str s]) li
  | fuel + 1, .tok d cs ex ps :: rest, frames, kept, li =>
      let isGiven := isInstAny d.cls classes
      match (if isGiven then mappings.lookup d.name else none) with
      | some (endList, clsName) =>
          -- opening marker: patch the class, feed the children to
          -- `process_params` (kept in `params`), clear them, open a frame.
          let patched := { d with cls := clsName }
          nestSeq mappings classes fuel rest
            (⟨patched, [], [], cs, endList, !frames.isEmpty⟩ :: frames) kept li
      | none =>
          match frames with
          | fr :: frest =>
              if isGiven then
                match fr.tags.getLast? with
                | none => throw .indexError
                | some lastTag =>
                    if d.name = lastTag then
                      -- closing marker: drop it, pop the frame, attach the
                      -- completed node to its destination.
                      let completed := NNode.tok fr.d fr.children fr.extra fr.params
                      if fr.toParent then
                        match frest with
                        | g :: gs =>
                            nestSeq mappings classes fuel rest
                              (appendCur g li completed :: gs) kept li
                        | [] => throw .indexError
                      else
                        nestSeq mappings classes fuel rest frest (kept ++ [completed]) li
                    else if d.name ∈ fr.tags.dropLast then
                      -- interior (`else`-style) marker: the source computes
                      -- `count = end_tag[-1].index(check_value) + 1`, but no
                      -- variable `end_tag` exists — a Python `NameError`.
                      throw (.nameError "end_tag")
                    else do
                      let c2 ← nestTok mappings classes fuel (.tok d cs ex ps)
                      nestSeq mappings classes fuel rest
                        (appendCur fr li c2 :: frest) kept li
              else do
                let c2 ← nestTok mappings classes fuel (.tok d cs ex ps)
                nestSeq mappings classes fuel rest (appendCur fr li c2 :: frest) kept li
          | [] =>
              if isInst d.cls "Token" then do
                let c2 ← nestTok mappings classes fuel (.tok d cs ex ps)
                nestSeq mappings classes fuel rest frames (kept ++ [c2]) li
              else
                nestSeq mappings classes fuel rest frames (kept ++ [.tok d cs ex ps]) li

end

/-! ## Scope discovery and minification (`_minify_variable_names`) -/

/-- A scope's symbol table: declared name → declaring token identity
(Python stores the token object in a dict; insertion order is modelled —
the py2 dict iteration order is arbitrary, which none of the verified
properties depend on). -/
abbrev SymTab := List (String × Nat)

/-- All symbol tables, keyed by the owning node's identity. -/
abbrev SymTabs := List (Nat × SymTab)

/-- `scope.symbol_table[name] = token`: insert or overwrite in place. -/
def symInsert : SymTab → String → Nat → SymTab
  | [], k, v => [(k, v)]
  | (k2, v2) :: r, k, v =>
      if k2 = k then (k, v) :: r else (k2, v2) :: symInsert r k v

/-- Update the table of one scope (creating it on first use). -/
def tabInsert : SymTabs → Nat → String → Nat → SymTabs
  | [], sid, k, v => [(sid, symInsert [] k v)]
  | (sid2, t) :: r, sid, k, v =>
      if sid2 = sid then (sid, symInsert t k v) :: r
      else (sid2, t) :: tabInsert r sid k v

/-- `find_variables(js_node, scope, in_root_node)` over a child list,
threading the `next_is_variable` flag.  Faithful details: whitespace
leaves the flag alone; a scope child opens its own table (never in root);
any other token is recursed into with the *default* `in_root_node=True`
and resets the flag; declarations are only recorded when the flag is set,
the child is a variable, and the current context is not the root. -/
def findVarsList : Nat → List Node → Nat → Bool → Bool → SymTabs → Option SymTabs
  | 0, _, _, _, _, _ => none
  | _ + 1, [], _, _, _, tabs => some tabs
  | fuel + 1, c :: rest, sid, inRoot, niv, tabs =>
      match c with
      | .str _ => findVarsList fuel rest sid inRoot false tabs
      | .tok d cs =>
          if jsClsOf d = .keyword ∧
             (rawOut (.tok d cs) = "function".toList ∨ rawOut (.tok d cs) = "var".toList) ∧
             ¬ inRoot then
            findVarsList fuel rest sid inRoot true tabs
          else if jsClsOf d = .variable ∧ niv then
            findVarsList fuel rest sid inRoot false
              (tabInsert tabs sid (String.mk (rawOut (.tok d cs))) d.id)
          else if jsClsOf d = .scope then
            match findVarsList fuel cs d.id false false tabs with
            | none => none
            | some tabs2 => findVarsList fuel rest sid inRoot false tabs2
          else if jsClsOf d = .whitespace then
            findVarsList fuel rest sid inRoot niv tabs
          else
            match findVarsList fuel cs sid true false tabs with
            | none => none
            | some tabs2 => findVarsList fuel rest sid inRoot false tabs2

/-- `skip_whitespace` of `find_variables_2` (`current_node()` past the end
is an `IndexError`). -/
def fv2SkipWs (children : List Node) : Nat → Int → Except Err Int
  | 0, _ => throw .outOfFuel
  | fuel + 1, i => do
      let c ← pyGet children i
      if isWsNode c then fv2SkipWs children fuel (i + 1) else pure i

/-- `skip_whitespace_and_kommas`: also skips operators whose *raw* output
is exactly a comma. -/
def fv2SkipWsKommas (children : List Node) : Nat → Int → Except Err Int
  | 0, _ => throw .outOfFuel
  | fuel + 1, i => do
      let c ← pyGet children i
      if isWsNode c ∨ (nodeJsCls c = some .operator ∧ rawOut c = [',']) then
        fv2SkipWsKommas children fuel (i + 1)
      else pure i

/-- Parameter collection loop of `find_variables_2`: gather variable
tokens separated by whitespace/commas. -/
def fv2Params (children : List Node) : Nat → Int → List (String × Nat) →
    Except Err (List (String × Nat) × Int)
  | 0, _, _ => throw .outOfFuel
  | fuel + 1, i, acc => do
      let c ← pyGet children i
      match c with
      | .tok d _ =>
          if jsClsOf d = .variable then do
            let i2 ← fv2SkipWsKommas children (fuel + 1) (i + 1)
            fv2Params children fuel i2 (acc ++ [(String.mk (rawOut c), d.id)])
          else pure (acc, i)
      | .str _ => pure (acc, i)

/-- `find_variables_2(js_node, scope)`: one flat scan of the root's
children binding `function (p1, p2, ...) { ... }` parameters into the
symbol table of the function's body scope.  (The source never recurses
here, so only top-level functions are scanned.) -/
def fv2Loop (children : List Node) : Nat → Int → SymTabs → Except Err SymTabs
  | 0, _, _ => throw .outOfFuel
  | fuel + 1, i, tabs =>
      if i < (children.length : Int) then do
        let c ← pyGet children i
        if nodeJsCls c = some .keyword ∧ kwText c = "function".toList then do
          let i2 ← fv2SkipWs children (fuel + 1) (i + 1)
          let cName ← pyGet children i2
          let i3 ← if nodeJsCls cName = some .variable then
                     fv2SkipWs children (fuel + 1) (i2 + 1)
                   else pure i2
          let cOpen ← pyGet children i3
          if ¬ (nodeJsCls cOpen = some .operator ∧ rawOut cOpen = ['(']) then
            throw (nodeErr cOpen "Expected \"(\"")
          else do
            let i4 ← fv2SkipWs children (fuel + 1) (i3 + 1)
            let (vars, i5) ← fv2Params children (fuel + 1) i4 []
            let cClose ← pyGet children i5
            if ¬ (nodeJsCls cClose = some .operator ∧ rawOut cClose = [')']) then
              throw (nodeErr cClose "Expected \"(\"")
            else do
              let i6 ← fv2SkipWs children (fuel + 1) (i5 + 1)
              let cScope ← pyGet children i6
              match cScope with
              | .tok ds _ =>
                  if jsClsOf ds = .scope then
                    let tabs2 := vars.foldl (fun t (p : String × Nat) =>
                      tabInsert t ds.id p.1 p.2) tabs
                    fv2Loop children fuel i6 tabs2
                  else throw (nodeErr cScope "Expected \"\x7b\"")
              | .str _ => throw (nodeErr cScope "Expected \"\x7b\"")
        else fv2Loop children fuel (i + 1) tabs
      else pure tabs

/-- Occurrence identity → declaring-token identity. -/
abbrev Links := List (Nat × Nat)

/-- Search the chain of enclosing scopes, innermost first, for the first
symbol table containing the name. -/
def resolveVar (tabs : SymTabs) (scopes : List Nat) (name : String) : Option Nat :=
  match scopes with
  | [] => none
  | sid :: rest =>
      match ((tabs.lookup sid).getD []).lookup name with
      | some tid => some tid
      | none => resolveVar tabs rest name

/-- `find_free_variables(js_node, parent_scopes)`: link every variable
occurrence not suppressed by a preceding member-access dot to its
declaring token, or record its name in `global_variable_names`.  Faithful
details: the `skip_next_var` flag is reassigned only by operator children
(so it persists across the skipped variable itself, whitespace and other
tokens); scopes recurse with themselves prepended; every other token (and
whitespace) recurses with the same scope chain. -/
def findFreeList (tabs : SymTabs) :
    Nat → List Node → List Nat → Bool → Links × List String →
    Option (Links × List String)
  | 0, _, _, _, _ => none
  | _ + 1, [], _, _, acc => some acc
  | fuel + 1, c :: rest, scopes, skip, acc =>
      match c with
      | .str _ => findFreeList tabs fuel rest scopes skip acc
      | .tok d cs =>
          if jsClsOf d = .operator then
            findFreeList tabs fuel rest scopes (pyStrip (rawOut (.tok d cs)) = ['.']) acc
          else if jsClsOf d = .variable then
            if ¬ skip then
              let nm := String.mk (rawOut (.tok d cs))
              match resolveVar tabs scopes nm with
              | some tid => findFreeList tabs fuel rest scopes skip (acc.1 ++ [(d.id, tid)], acc.2)
              | none => findFreeList tabs fuel rest scopes skip (acc.1, acc.2 ++ [nm])
            else findFreeList tabs fuel rest scopes skip acc
          else if jsClsOf d = .scope then
            match findFreeList tabs fuel cs (d.id :: scopes) false acc with
            | none => none
            | some acc2 => findFreeList tabs fuel rest scopes skip acc2
          else
            match findFreeList tabs fuel cs scopes false acc with
            | none => none
            | some acc2 => findFreeList tabs fuel rest scopes skip acc2

/-- `__JS_KEYWORDS` (js_processor.py line 26): the avoid list used by
`generate_varname`.  It contains the source's literal `gcase` typo and —
unlike the tokenizer's keyword alternation — no `case`. -/
def jsKeywordList : List String :=
  ["break", "catch", "const", "continue", "debugger", "default", "delete",
   "do", "else", "enum", "false", "finally", "for", "function", "gcase",
   "if", "in", "instanceof", "new", "null", "return", "switch", "this",
   "throw", "true", "try", "typeof", "var", "void", "while", "with"]

/-- `output(c)` of `generate_varname`: the digit list rendered with
`string.lowercase`, least-significant digit first. -/
def outputName (c : List Nat) : String :=
  String.mk (c.map (fun i => Char.ofNat (97 + i)))

/-- One increment of the numeral: `c[0] += 1` followed by the overflow
scan that zeroes a digit reaching 26 and carries into the next, appending
a fresh `0` digit when the carry runs off the end. -/
def addCarry : List Nat → List Nat
  | [] => [0]
  | d :: rest => if d + 1 = 26 then 0 :: addCarry rest else (d + 1) :: rest

/-- The `while output(c) in avoid_names` search loop of
`generate_varname`. -/
def genVarLoop : Nat → List Nat → List String → Option String
  | 0, _, _ => none
  | fuel + 1, c, avoid =>
      if outputName c ∈ avoid then genVarLoop fuel (addCarry c) avoid
      else some (outputName c)

/-- `generate_varname(avoid_names)`: the keywords are appended to the
avoid list (the source mutates the caller's list in place, which only
ever adds further keyword duplicates — membership-equivalent), and the
enumeration starts at `[0]` (the name `a`). -/
def generateVarname (fuel : Nat) (avoid : List String) : Option String :=
  genVarLoop fuel [0] (avoid ++ jsKeywordList)

/-- Generated names, keyed by declaring-token identity
(`set_variable_name`). -/
abbrev VarNames := List (Nat × String)

/-- The symbol-table loop of `rename_variables`: assign each symbol of
this node a fresh name, extending the avoid list as it goes. -/
def renameFold (gfuel : Nat) : SymTab → List String → VarNames →
    Option (List String × VarNames)
  | [], avoid, vn => some (avoid, vn)
  | (_, tid) :: rest, avoid, vn =>
      match generateVarname gfuel avoid with
      | none => none
      | some nm => renameFold gfuel rest (avoid ++ [nm]) (vn ++ [(tid, nm)])

mutual

/-- `rename_variables(js_node, avoid_names)`: outer-to-inner walk; every
token has a (possibly empty) symbol table after
`_add_javascript_parser_extensions`, and each child receives a copy of
the avoid list as extended by this node's assignments. -/
def renameNode (tabs : SymTabs) (gfuel : Nat) :
    Nat → Node → List String → VarNames → Option VarNames
  | 0, _, _, _ => none
  | _ + 1, .str _, _, vn => some vn
  | fuel + 1, .tok d cs, avoid, vn =>
      match renameFold gfuel ((tabs.lookup d.id).getD []) avoid vn with
      | none => none
      | some (avoid2, vn2) => renameChildren tabs gfuel fuel cs avoid2 vn2

/-- The children loop of `rename_variables` (token children only). -/
def renameChildren (tabs : SymTabs) (gfuel : Nat) :
    Nat → List Node → List String → VarNames → Option VarNames
  | 0, _, _, _ => none
  | _ + 1, [], _, vn => some vn
  | fuel + 1, .str _ :: rest, avoid, vn => renameChildren tabs gfuel fuel rest avoid vn
  | fuel + 1, .tok d cs :: rest, avoid, vn =>
      match renameNode tabs gfuel fuel (.tok d cs) avoid vn with
      | none => none
      | some vn2 => renameChildren tabs gfuel fuel rest avoid vn2

end

mutual

/-- Raw text of the token with the given identity (for rendering a link
target). -/
def rawOfId : Node → Nat → Option (List Char)
  | .str _, _ => none
  | .tok d cs, tid =>
      if d.id = tid then some (rawOut (.tok d cs))
      else rawOfIdList cs tid

/-- `rawOfId` over a forest. -/
def rawOfIdList : List Node → Nat → Option (List Char)
  | [], _ => none
  | c :: rest, tid =>
      match rawOfId c tid with
      | some r => some r
      | none => rawOfIdList rest tid

end

/-- `JavascriptVariable.output`: the assigned name if any, else the output
of the linked declaring token, else the token's own text.  The fuel bounds
the `__link_to` chain (the source recurses through object references). -/
def renderVar (root : Node) (vn : VarNames) (links : Links) :
    Nat → Nat → Option (List Char)
  | 0, _ => none
  | fuel + 1, tid =>
      match vn.lookup tid with
      | some nm => some nm.toList
      | none =>
          match links.lookup tid with
          | some target => renderVar root vn links fuel target
          | none => (rawOfId root tid)

/-- The result of the renaming pipeline: symbol tables, occurrence links,
the global must-avoid names, and the generated names. -/
structure MinifyResult where
  tabs : SymTabs
  links : Links
  globals : List String
  varnames : VarNames
deriving DecidableEq, Repr

/-- The renaming part of `_minify_variable_names(js_node)`:
`find_variables` then `find_variables_2` (building the symbol tables),
`find_free_variables` (links and the global must-avoid names), then
`rename_variables(js_node, global_variable_names[:])`. -/
def minifyNames (fuel : Nat) (root : Node) : Except Err MinifyResult := do
  match root with
  | .str _ => throw .attributeError
  | .tok d cs =>
      match findVarsList fuel cs d.id true false [] with
      | none => throw .outOfFuel
      | some tabs1 =>
      let tabs2 ← fv2Loop cs fuel 0 tabs1
      match findFreeList tabs2 fuel cs [d.id] false ([], []) with
      | none => throw .outOfFuel
      | some (links, globals) =>
          match renameNode tabs2 fuel fuel (.tok d cs) globals [] with
          | none => throw .outOfFuel
          | some vn => pure ⟨tabs2, links, globals, vn⟩

/-! ## Concrete scenarios -/

/-- A leaf tag node for the nesting scenarios. -/
def nTag (name : String) (line column : Nat) : NNode :=
  NNode.tok ⟨name, line, column, "t.html", "Token"⟩ [] [] []

/-- The scenario mapping `Begin -> (["Else", "End"], Container)`. -/
def demoMapping : List (String × (List String × String)) :=
  [("Begin", (["Else", "End"], "Container"))]

/-- A root tree with the given flat children. -/
def nRoot (cs : List NNode) : NNode :=
  NNode.tok ⟨"root", 1, 1, "t.html", "Token"⟩ cs [] []

/-- `Begin` opener at line 2, column 3. -/
def demoBegin : NNode := nTag "Begin" 2 3

/-- Interior content nodes and markers of the scenario. -/
def demoA : NNode := nTag "A" 2 10

/-- Second content node. -/
def demoB : NNode := nTag "B" 2 30

/-- The `Else` interior marker. -/
def demoElse : NNode := nTag "Else" 2 20

/-- The `End` closing marker. -/
def demoEnd : NNode := nTag "End" 2 40

/-- A token of the hand-built javascript scenario trees: `name`d, with
identity `i` (also used as the column to keep positions distinct), and
literal `text` content. -/
def jsT (name : String) (i : Nat) (text : String) : Node :=
  .tok ⟨name, 1, i, "s.js", "Token", i⟩ [.str text.toList]

/-- A scope token of the scenario trees. -/
def jsS (i : Nat) (cs : List Node) : Node :=
  .tok ⟨"js-scope", 1, i, "s.js", "Token", i⟩ cs

/-- The tokenized tree of `\x7bvar x; \x7bvar x; x;\x7d x;\x7d`: a scope
declaring `var x` (token 5) containing a nested scope declaring a
shadowing `var x` (token 10) with an occurrence `x` (token 12), and a
trailing occurrence `x` (token 14) back in the outer scope. -/
def shadowTree : Node :=
  .tok ⟨"root", 1, 1, "s.js", "Token", 1⟩
    [jsS 2
      [jsT "js-keyword" 3 "var", jsT "js-whitespace" 4 " ", jsT "js-varname" 5 "x",
       jsT "js-operator" 6 ";",
       jsS 7
         [jsT "js-keyword" 8 "var", jsT "js-whitespace" 9 " ", jsT "js-varname" 10 "x",
          jsT "js-operator" 11 "; ", jsT "js-varname" 12 "x", jsT "js-operator" 13 ";"],
       jsT "js-varname" 14 "x", jsT "js-operator" 15 ";"]]

/-- The tokenized tree of `\x7bvar x = window;\x7d`: a scope declaring
`var x` (token 5) initialized from the free identifier `window`
(token 7), which no scope declares. -/
def windowTree : Node :=
  .tok ⟨"root", 1, 1, "s.js", "Token", 1⟩
    [jsS 2
      [jsT "js-keyword" 3 "var", jsT "js-whitespace" 4 " ", jsT "js-varname" 5 "x",
       jsT "js-operator" 6 " = ", jsT "js-varname" 7 "window", jsT "js-operator" 8 ";"]]

/-- Equality of `Except` results is decidable (used to evaluate concrete
runs inside proofs). -/
instance {α β : Type} [DecidableEq α] [DecidableEq β] : DecidableEq (Except α β) :=
  fun a b =>
    match a, b with
    | .error x, .error y =>
        if h : x = y then .isTrue (by rw [h])
        else .isFalse (fun hh => by cases hh; exact h rfl)
    | .error _, .ok _ => .isFalse (fun hh => by cases hh)
    | .ok _, .error _ => .isFalse (fun hh => by cases hh)
    | .ok x, .ok y =>
        if h : x = y then .isTrue (by rw [h])
        else .isFalse (fun hh => by cases hh; exact h rfl)

/-! ## Claim C4: the name generator -/

/-- The single letters `a`–`z`. -/
def singleLetters : List String :=
  (List.range 26).map (fun i => String.mk [Char.ofNat (97 + i)])

/-! ## Claim C3: nested (enter-class) parses -/

/-- Grammar for the nested-parse scenario: in `root`, an `a` switches to
state `other` (no `Pop` anywhere in `root`), and a `b` records `ROOT-B`;
in `other`, a `b` records `OTHER-B` and pops the state stack. -/
def c3States : StateTable :=
  [("root",
    [ (.lit ['a'], [.push "other", .shift]),
      (.lit ['b'], [.record (some "ROOT-B".toList), .shift]) ]),
   ("other",
    [ (.lit ['b'], [.record (some "OTHER-B".toList), .shift, .pop]) ])]

/-- The enter-class child of the scenario, containing the text `b`. -/
def c3ChildD : TokData := ⟨"child", 1, 5, "p", "EnterCls", 77⟩

/-- The scenario root. -/
def c3RootD : TokData := ⟨"doc", 1, 1, "p", "Token", 0⟩

/-- Scenario input: the text `a` (which pushes state `other`), then the
enter-class child whose content is `b`, then the text `b`. -/
def c3Inputs : List Node := [.str ['a'], .tok c3ChildD [.str ['b']], .str ['b']]

/-- The claim's reading of the enter-class recursion, stated as a second
definition to compare against the source: the nested parse is fully
independent — fresh open-token stack *and* fresh state stack (starting
from `root`) — and the enclosing parse's stacks are untouched by it.
Identical to `nodeLoop` except in the `classes_to_enter` branch. -/
def nodeLoopClaimed (states : StateTable) (replaceCls enterCls : List String) (tfuel : Nat) :
    Nat → List Node → String → List String → List Frame → Nat → Nat → Nat →
    Except Err (List String × List Frame × Nat)
  | 0, _, _, _, _, _, _, _ => throw .outOfFuel
  | _ + 1, [], _, ss, ts, _, _, shifted => pure (ss, ts, shifted)
  | nfuel + 1, .str s0 :: rest, path, ss, ts, line, column, shifted => do
      let (more, rest2) := strRun rest
      let (ss, ts, line, column, shifted) ←
        textLoop states path (s0 ++ more) tfuel 0 ss ts line column shifted
      nodeLoopClaimed states replaceCls enterCls tfuel nfuel rest2 path ss ts line column shifted
  | nfuel + 1, .tok d cs :: rest, path, ss, ts, line, column, shifted =>
      if isInstAny d.cls replaceCls then do
        let (ss, ts, shifted) ←
          nodeLoopClaimed states replaceCls enterCls tfuel nfuel cs d.path ss ts
            d.line d.column shifted
        nodeLoopClaimed states replaceCls enterCls tfuel nfuel rest path ss ts
          line column shifted
      else if isInstAny d.cls enterCls then do
        let (_, tsChild, shifted) ←
          nodeLoopClaimed states replaceCls enterCls tfuel nfuel cs d.path ["root"] [⟨d, []⟩]
            d.line d.column shifted
        let ts2 ← pushChild ts (collapse d tsChild)
        nodeLoopClaimed states replaceCls enterCls tfuel nfuel rest path ss ts2
          line column shifted
      else do
        let ts2 ← pushChild ts (.tok d cs)
        nodeLoopClaimed states replaceCls enterCls tfuel nfuel rest path ss ts2
          line column shifted

/-- Top-level wrapper of the claim's reading. -/
def tokenizeTopClaimed (states : StateTable) (replaceCls enterCls : List String)
    (tfuel nfuel : Nat) (d : TokData) (children : List Node) :
    Except Err (TokData × List Node) := do
  let (_, ts, _) ←
    nodeLoopClaimed states replaceCls enterCls tfuel nfuel children d.path ["root"]
      [⟨d, []⟩] d.line d.column 0
  match ts with
  | [f] => pure (f.d, f.children)
  | [] => throw .indexError
  | f :: _ :: _ =>
      throw (.compileException f.d.line f.d.column f.d.path (f.d.name ++ " not terminated"))

/-! ## Claim C8: the open-token balance check -/

/-- A grammar whose only rule pops the open-token stack while consuming a
character: on any non-empty input it pops the root itself. -/
def c8PopStates : StateTable :=
  [("root", [ (.anyOrWs, [.shift, .stopToken none]) ])]

/-- A grammar whose only rule opens a `blk` token and never closes it. -/
def c8OpenStates : StateTable :=
  [("root", [ (.anyOrWs, [.startToken "blk", .shift]) ])]

/-- A root token for the balance scenarios. -/
def c8D : TokData := ⟨"doc", 3, 4, "q", "Token", 0⟩

/-! ## Claim C2: total consumption and the no-match case -/

mutual

/-- The raw text a `tokenize` run consumes inside one node: the length of
its string fragments, descending into children of the classes the engine
recurses into (replace or enter) and nothing else. -/
def textTotalNode (r e : List String) : Node → Nat
  | .str s => s.length
  | .tok d cs =>
      if isInstAny d.cls r ∨ isInstAny d.cls e then textTotalList r e cs else 0

/-- Total consumable text of an input forest. -/
def textTotalList (r e : List String) : List Node → Nat
  | [] => 0
  | n :: rest => textTotalNode r e n + textTotalList r e rest

end

/-- A grammar with a single rule that only matches the letter `x`: on any
other input no rule of the active state matches. -/
def c2StuckStates : StateTable :=
  [("root", [ (.lit ['x'], [.shift]) ])]

/-- A root token for the stuck-grammar scenario. -/
def c2D : TokData := ⟨"doc", 1, 1, "r", "Token", 0⟩

theorem takeWhile_len_le (p : Char → Bool) (l : List Char) :
    (l.takeWhile p).length ≤ l.length := by
  induction l with
  | nil => simp
  | cons c rest ih =>
      simp only [List.takeWhile]
      split
      · simpa using ih
      · simp

theorem isPrefixOf_len_le (a b : List Char) (h : a.isPrefixOf b) :
    a.length ≤ b.length :=
  (List.isPrefixOf_iff_prefix.mp h).length_le

theorem commentBodyLen_le (s : List Char) : commentBodyLen s ≤ s.length := by
  induction s with
  | nil => simp [commentBodyLen]
  | cons c rest ih =>
      simp only [commentBodyLen]
      split
      · simp
      · simp only [List.length_cons]; omega

theorem starNFLen_le (s : List Char) : starNFLen s ≤ s.length := by
  induction s with
  | nil => simp [starNFLen]
  | cons c rest ih =>
      simp only [starNFLen]
      split
      · simp only [List.length_cons]; omega
      · simp

theorem matchKwAlt_le (alts : List (List Char)) (s : List Char) (n : Nat)
    (h : matchKwAlt alts s = some n) : n ≤ s.length := by
  induction alts with
  | nil => simp [matchKwAlt] at h
  | cons k rest ih =>
      unfold matchKwAlt at h
      split at h
      · rename_i hc
        cases h
        exact isPrefixOf_len_le _ _ hc.1
      · exact ih h

mutual

theorem matchPat_le (p : Pat) (s : List Char) (n : Nat)
    (h : matchPat p s = some n) : n ≤ s.length := by
  cases p with
  | lit l =>
      simp only [matchPat] at h
      split at h
      · rename_i hc; cases h; exact isPrefixOf_len_le _ _ hc
      · cases h
  | wsStar =>
      simp only [matchPat] at h
      cases h
      exact takeWhile_len_le _ _
  | wsPlus =>
      simp only [matchPat] at h
      split at h
      · cases h
      · cases h; exact takeWhile_len_le _ _
  | oneOf cs =>
      cases s with
      | nil => simp [matchPat] at h
      | cons c rest =>
          simp only [matchPat] at h
          split at h
          · cases h; simp
          · cases h
  | noneOfPlus cs =>
      simp only [matchPat] at h
      split at h
      · cases h
      · cases h; exact takeWhile_len_le _ _
  | ofPlus cs =>
      simp only [matchPat] at h
      split at h
      · cases h
      · cases h; exact takeWhile_len_le _ _
  | jsIdent =>
      cases s with
      | nil => simp [matchPat] at h
      | cons c rest =>
          simp only [matchPat] at h
          split at h
          · cases h
            have := takeWhile_len_le identTailChar rest
            simp only [List.length_cons]
            omega
          · cases h
  | kwAlt alts => exact matchKwAlt_le alts s n h
  | anyOrWs =>
      cases s with
      | nil => simp [matchPat] at h
      | cons c rest => simp only [matchPat] at h; cases h; simp
  | dot =>
      cases s with
      | nil => simp [matchPat] at h
      | cons c rest =>
          simp only [matchPat] at h
          split at h
          · cases h
          · cases h; simp
  | lookNeg cs =>
      cases s with
      | nil => simp only [matchPat] at h; cases h; simp
      | cons c rest =>
          simp only [matchPat] at h
          split at h
          · cases h
          · cases h; simp
  | commentBody =>
      simp only [matchPat] at h
      split at h
      · cases h
      · cases h; exact commentBodyLen_le s
  | starNFPlus =>
      simp only [matchPat] at h
      split at h
      · cases h
      · cases h; exact starNFLen_le s
  | noneOfStar cs =>
      simp only [matchPat] at h
      cases h; exact takeWhile_len_le _ _
  | optOf cs =>
      cases s with
      | nil => simp only [matchPat] at h; cases h; simp
      | cons c rest =>
          simp only [matchPat] at h
          split at h
          · cases h; simp
          · cases h; simp
  | seq ps => exact matchSeq_le ps s n h

theorem matchSeq_le (ps : List Pat) (s : List Char) (n : Nat)
    (h : matchSeq ps s = some n) : n ≤ s.length := by
  cases ps with
  | nil => simp only [matchSeq] at h; cases h; simp
  | cons p ps =>
      simp only [matchSeq] at h
      cases hp : matchPat p s with
      | none => simp only [hp] at h; cases h
      | some k =>
          simp only [hp] at h
          cases hq : matchSeq ps (s.drop k) with
          | none => simp only [hq] at h; cases h
          | some m =>
              simp only [hq] at h
              cases h
              have h1 := matchPat_le p s k hp
              have h2 := matchSeq_le ps (s.drop k) m hq
              have h3 : (s.drop k).length = s.length - k := by simp
              omega

end

/-! ## Claims C1 and C7: the nesting transform -/

/-- **C1** (code bug).  On `[Begin, A, Else, B, End]` with mapping
`Begin -> (["Else", "End"], Container)` the transform is documented (its
own docstring) and specified to produce one `Container` with primary
children `[A]` and the else-part `[B]`; the interior-marker branch of the
source instead reads the undefined name `end_tag`
(lexer_engine.py line 232), a `NameError`, so the run aborts.  The
no-`Else` input `[Begin, A, End]` does produce a single `Container` whose
primary child list is `[A]` with no secondary list. -/
theorem claim_C1 :
    nestTok demoMapping ["Token"] 50
        (nRoot [demoBegin, demoA, demoElse, demoB, demoEnd])
      = .error (.nameError "end_tag")
    ∧ nestTok demoMapping ["Token"] 50 (nRoot [demoBegin, demoA, demoEnd])
      = .ok (NNode.tok ⟨"root", 1, 1, "t.html", "Token"⟩
          [NNode.tok ⟨"Begin", 2, 3, "t.html", "Container"⟩
            [nTag "A" 2 10] [] []] [] []) :=
  ⟨rfl, rfl⟩

/-- **C7** (confirmed).  `[Begin, A]` with the same mapping leaves the
`Begin` frame open at the end of the scan, and the transform raises the
fatal nesting error carrying exactly the opening marker's position
(line 2, column 3, path `t.html`). -/
theorem claim_C7 :
    nestTok demoMapping ["Token"] 50 (nRoot [demoBegin, demoA])
      = .error (.compileException 2 3 "t.html" "Container tag not terminated") :=
  rfl

/-! ## Claim C9: the script validation pass -/

/-- **C9, counterexample.**  The missing-separator input
`var x = 1 var y = 2` taken as a whole script contains no brace-delimited
scope, and both passes of `_validate_javascript` only iterate
`child_nodes_of_class([JavascriptScope])`; the claimed fatal validation
error is not raised — the input validates cleanly. -/
theorem claim_C9_counterexample :
    jsTokenizeAndValidate 100 ("var x = 1 var y = 2".toList) = .ok () := rfl

/-- **C9, amended.**  The trailing-separator input `var x = \x7b y: 1, \x7d`
raises the validation error at the comma token (line 1, column 15); a
missing statement separator is detected only *inside* a scope:
`\x7bvar x = 1 var y = 2\x7d` raises at the second `var` (line 1,
column 12), while the same statements at top level, outside any scope,
pass the validator unexamined. -/
theorem claim_C9 :
    jsTokenizeAndValidate 100 ("var x = \x7b y: 1, \x7d".toList)
      = .error (.compileException 1 15 "" msgTrailingComma)
    ∧ jsTokenizeAndValidate 100 ("\x7bvar x = 1 var y = 2\x7d".toList)
      = .error (.compileException 1 12 "" msgMissing)
    ∧ jsTokenizeAndValidate 100 ("var x = 1 var y = 2".toList) = .ok () :=
  ⟨rfl, rfl, rfl⟩

/-- The name-search loop returns exactly the first enumerated name that is
not in the avoid list: the result avoids the list, is reached by
iterating the increment from the start numeral, and every earlier
enumerated name is in the list. -/
theorem genVarLoop_spec (fuel : Nat) (c : List Nat) (avoid : List String) (r : String)
    (h : genVarLoop fuel c avoid = some r) :
    r ∉ avoid ∧ ∃ k, r = outputName (addCarry^[k] c) ∧
      ∀ j < k, outputName (addCarry^[j] c) ∈ avoid := by
  induction fuel generalizing c with
  | zero => simp [genVarLoop] at h
  | succ fuel ih =>
      unfold genVarLoop at h
      split at h
      · rename_i hmem
        obtain ⟨hr, k, hk, hlt⟩ := ih (addCarry c) h
        refine ⟨hr, k + 1, ?_, ?_⟩
        · rw [Function.iterate_succ_apply]
          exact hk
        · intro j hj
          cases j with
          | zero => simpa using hmem
          | succ j =>
              rw [Function.iterate_succ_apply]
              exact hlt j (by omega)
      · rename_i hmem
        cases h
        exact ⟨hmem, 0, rfl, by omega⟩

/-- **C4, counterexample.**  With every single letter and `aa` already in
use, `generate_varname` returns `ba` — the enumeration increments the
*first* character fastest (a, …, z, aa, ba, ca, …) — although the
lexicographically smaller lowercase name `ab` is unused.  The claimed
candidate order a, b, …, z, aa, ab, … would have produced `ab`. -/
theorem claim_C4_counterexample :
    generateVarname 50 (singleLetters ++ ["aa"]) = some "ba"
    ∧ "ab" ∉ singleLetters ++ ["aa"] ++ jsKeywordList
    ∧ ("ab".toList : List Char) < "ba".toList := by
  refine ⟨by decide, by decide, by decide⟩

/-- **C4, amended.**  `generate_varname` returns the first identifier of
its base-26 enumeration — starting at `a` and incrementing the first
character fastest, i.e. a, …, z, aa, ba, …, za, ab, … — that is neither
in the avoid list nor a reserved keyword (`__JS_KEYWORDS`); every earlier
name of that enumeration is skipped because it is in use.  (This is not
the lexicographically smallest unused candidate: see the
counterexample.) -/
theorem claim_C4 (fuel : Nat) (avoid : List String) (r : String)
    (h : generateVarname fuel avoid = some r) :
    r ∉ avoid ∧ r ∉ jsKeywordList ∧
    ∃ k, r = outputName (addCarry^[k] [0]) ∧
      ∀ j < k, outputName (addCarry^[j] [0]) ∈ avoid ++ jsKeywordList := by
  obtain ⟨hr, k, hk, hlt⟩ := genVarLoop_spec fuel [0] (avoid ++ jsKeywordList) r h
  rw [List.mem_append] at hr
  push_neg at hr
  exact ⟨hr.1, hr.2, k, hk, hlt⟩

/-- **C4, witness.**  With only `a` in use the generator returns `b`:
instantiating the amended claim at that run. -/
theorem claim_C4_witness :
    ("b" : String) ∉ ["a"] ∧ ("b" : String) ∉ jsKeywordList ∧
    ∃ k, ("b" : String) = outputName (addCarry^[k] [0]) ∧
      ∀ j < k, outputName (addCarry^[j] [0]) ∈ ["a"] ++ jsKeywordList :=
  claim_C4 5 ["a"] "b" (by decide)

/-! ## Claim C5: shadowed declarations -/

/-- **C5** (confirmed).  On the scenario tree (outer scope id 2 declares
`var x` as token 5, nested scope id 7 declares a shadowing `var x` as
token 10, with occurrences 12 — inside — and 14 — outside) the pipeline
resolves each occurrence to the declaring token of its *innermost*
declaring scope: 12 links to 10 and 14 links to 5, two different
declaring tokens.  Renaming assigns the outer `x` the name `a` and the
inner `x` the name `b`: the two generated names differ, neither is a
reserved keyword, the inner name avoids the enclosing scope's name, and
the global must-avoid set is empty. -/
theorem claim_C5 :
    minifyNames 50 shadowTree
      = .ok ⟨[(2, [("x", 5)]), (7, [("x", 10)])],
             [(5, 5), (10, 10), (12, 10), (14, 5)],
             [],
             [(5, "a"), (10, "b")]⟩
    ∧ ("a" : String) ≠ "b"
    ∧ ("a" : String) ∉ jsKeywordList
    ∧ ("b" : String) ∉ jsKeywordList := by
  exact ⟨by decide, by decide, by decide, by decide⟩

/-! ## Claim C6: preservation of free (global) identifiers -/

/-- `rename_variables` symbol-loop correctness: every assignment it adds
carries a name outside the avoid list it was given, and the avoid list
only grows. -/
theorem renameFold_spec (gf : Nat) (tab : SymTab) (avoid : List String) (vn : VarNames)
    (avoid2 : List String) (vn2 : VarNames)
    (h : renameFold gf tab avoid vn = some (avoid2, vn2)) :
    (∀ p ∈ vn2, p ∈ vn ∨ p.2 ∉ avoid) ∧ (∀ x ∈ avoid, x ∈ avoid2) := by
  induction tab generalizing avoid vn with
  | nil =>
      simp only [renameFold] at h
      cases h
      exact ⟨fun p hp => .inl hp, fun x hx => hx⟩
  | cons s rest ih =>
      obtain ⟨nm2, tid⟩ := s
      simp only [renameFold] at h
      cases hg : generateVarname gf avoid with
      | none => rw [hg] at h; cases h
      | some nm =>
          rw [hg] at h
          have hnm : nm ∉ avoid := by
            have := (genVarLoop_spec gf [0] (avoid ++ jsKeywordList) nm hg).1
            intro hmem
            exact this (List.mem_append_left _ hmem)
          obtain ⟨h1, h2⟩ := ih (avoid ++ [nm]) (vn ++ [(tid, nm)]) h
          refine ⟨fun p hp => ?_, fun x hx => h2 x (List.mem_append_left _ hx)⟩
          rcases h1 p hp with hin | hout
          · rcases List.mem_append.mp hin with hv | hone
            · exact .inl hv
            · right
              have : p = (tid, nm) := by simpa using hone
              rw [this]
              exact hnm
          · right
            intro hmem
            exact hout (List.mem_append_left _ hmem)

/-- `rename_variables` never assigns a name from the avoid list it is
started with: joint statement for the node walk and the children loop,
by induction on the recursion depth. -/
theorem rename_avoid (fuel : Nat) :
    (∀ (tabs : SymTabs) (gf : Nat) (n : Node) (avoid : List String) (vn vn2 : VarNames),
        renameNode tabs gf fuel n avoid vn = some vn2 →
        ∀ p ∈ vn2, p ∈ vn ∨ p.2 ∉ avoid)
    ∧ (∀ (tabs : SymTabs) (gf : Nat) (l : List Node) (avoid : List String) (vn vn2 : VarNames),
        renameChildren tabs gf fuel l avoid vn = some vn2 →
        ∀ p ∈ vn2, p ∈ vn ∨ p.2 ∉ avoid) := by
  induction fuel with
  | zero =>
      constructor
      · intro tabs gf n avoid vn vn2 h
        simp [renameNode] at h
      · intro tabs gf l avoid vn vn2 h
        simp [renameChildren] at h
  | succ fuel ih =>
      constructor
      · intro tabs gf n avoid vn vn2 h
        match n with
        | .str s =>
            simp only [renameNode] at h
            cases h
            exact fun p hp => .inl hp
        | .tok d cs =>
            simp only [renameNode] at h
            cases hf : renameFold gf ((tabs.lookup d.id).getD []) avoid vn with
            | none => rw [hf] at h; cases h
            | some res =>
                obtain ⟨avoidF, vnF⟩ := res
                rw [hf] at h
                obtain ⟨hF1, hF2⟩ := renameFold_spec gf _ avoid vn avoidF vnF hf
                intro p hp
                rcases ih.2 tabs gf cs avoidF vnF vn2 h p hp with hin | hout
                · rcases hF1 p hin with hv | hnot
                  · exact .inl hv
                  · exact .inr hnot
                · exact .inr (fun hmem => hout (hF2 _ hmem))
      · intro tabs gf l avoid vn vn2 h
        match l with
        | [] =>
            simp only [renameChildren] at h
            cases h
            exact fun p hp => .inl hp
        | .str s :: rest =>
            simp only [renameChildren] at h
            exact ih.2 tabs gf rest avoid vn vn2 h
        | .tok d cs :: rest =>
            simp only [renameChildren] at h
            cases hn : renameNode tabs gf fuel (.tok d cs) avoid vn with
            | none => rw [hn] at h; cases h
            | some vnA =>
                rw [hn] at h
                intro p hp
                rcases ih.2 tabs gf rest avoid vnA vn2 h p hp with hin | hout
                · exact ih.1 tabs gf (.tok d cs) avoid vn vnA hn p hin
                · exact .inr hout

/-- **C6** (confirmed).  First, generally: whatever names
`rename_variables` assigns, none of them comes from the avoid list the
walk is started with — and `_minify_variable_names` starts it with the
global must-avoid names collected by `find_free_variables`, so no local
symbol in any scope is ever renamed to a free identifier of the document.
Second, on the scenario tree (`var x = window;` inside a scope), the free
identifier `window` — declared in no enclosing scope — ends up in the
global name list, `x` is renamed to `a` (not `window`), and the `window`
occurrence (token 7, unlinked and never assigned a name) renders its
original text unchanged. -/
theorem claim_C6 :
    (∀ (fuel : Nat) (tabs : SymTabs) (gf : Nat) (n : Node) (avoid : List String)
        (vn vn2 : VarNames),
        renameNode tabs gf fuel n avoid vn = some vn2 →
        ∀ p ∈ vn2, p ∈ vn ∨ p.2 ∉ avoid)
    ∧ minifyNames 50 windowTree
        = .ok ⟨[(2, [("x", 5)])], [(5, 5)], ["window"], [(5, "a")]⟩
    ∧ renderVar windowTree [(5, "a")] [(5, 5)] 10 7 = some ("window".toList) := by
  refine ⟨fun fuel => (rename_avoid fuel).1, by decide, by decide⟩

/-- **C6, witness.**  Instantiating the general statement at the
`windowTree` run: the single assignment `(5, a)` is new and its name
avoids `window`. -/
theorem claim_C6_witness :
    ((5, "a") : Nat × String) ∈ ([] : VarNames) ∨
    ((5, "a") : Nat × String).2 ∉ ["window"] :=
  claim_C6.1 50 [(2, [("x", 5)])] 50 windowTree ["window"] [] [(5, "a")]
    (by decide) (5, "a") (by decide)

/-- **C3, counterexample.**  The source passes the *same* `state_stack`
object to the nested parse of an enter-class child
(lexer_engine.py line 138), so the child's `b` is lexed in the enclosing
current state `other` — recording `OTHER-B` — and the nested `Pop`
persists into the enclosing parse, whose following `b` is then lexed in
`root` — recording `ROOT-B`.  Under the claim's fully-independent reading
the two recordings are exactly swapped; the runs differ. -/
theorem claim_C3_counterexample :
    tokenizeTop c3States [] ["EnterCls"] 10 10 c3RootD c3Inputs
      = .ok (c3RootD, [.tok c3ChildD [.str "OTHER-B".toList], .str "ROOT-B".toList])
    ∧ tokenizeTopClaimed c3States [] ["EnterCls"] 10 10 c3RootD c3Inputs
      = .ok (c3RootD, [.tok c3ChildD [.str "ROOT-B".toList], .str "OTHER-B".toList])
    ∧ ("OTHER-B".toList : List Char) ≠ "ROOT-B".toList :=
  ⟨rfl, rfl, by decide⟩

/-- **C3, amended.**  An enter-class child is tokenized as a nested parse
with a fresh *open-token* stack (its parsed content stays inside the
child node, which is then kept as an opaque child of the enclosing open
token, whose stack is unchanged), but the *state* stack is shared: the
nested parse starts in the enclosing parse's current state (`other`,
hence `OTHER-B` inside the child) and its net `Pop` persists (the final
state stack is `[root]`, and the enclosing text after the child is lexed
in `root`). -/
theorem claim_C3 :
    nodeLoop c3States [] ["EnterCls"] 10 10 c3Inputs "p" ["root"] [⟨c3RootD, []⟩] 1 1 0
      = .ok (["root"],
             [⟨c3RootD, [.tok c3ChildD [.str "OTHER-B".toList], .str "ROOT-B".toList]⟩],
             3) :=
  rfl

/-- **C8, counterexample.**  A rule executing a bare `StopToken` pops the
root itself off the open-token stack; at the end of the top-level call
the stack (now empty) differs from `[tree]`, which is a residual
imbalance, but `token_stack[-1]` on the empty list raises a Python
`IndexError` — not the claimed error of the form
`"<kind> not terminated"`. -/
theorem claim_C8_counterexample :
    tokenizeTop c8PopStates [] [] 5 5 c8D [.str ['x']] = .error .indexError :=
  rfl

/-- **C8, amended.**  When the body of a top-level `tokenize` call
returns normally with the open-token stack at depth 1, the call returns
the root node (so a grammar whose rules pair `StartToken`/`StopToken`
correctly returns with only the root open); when it returns with depth at
least 2 — extra unterminated nodes — the call raises
`"<kind> not terminated"` carrying the topmost unterminated node's kind
and start position.  (An over-popped, *empty* stack instead raises an
uninformative `IndexError`: see the counterexample.) -/
theorem claim_C8 :
    (∀ (states : StateTable) (r e : List String) (tf nf : Nat) (d : TokData)
        (cs : List Node) (ss2 : List String) (f : Frame) (sh : Nat),
        nodeLoop states r e tf nf cs d.path ["root"] [⟨d, []⟩] d.line d.column 0
          = .ok (ss2, [f], sh) →
        tokenizeTop states r e tf nf d cs = .ok (f.d, f.children))
    ∧ (∀ (states : StateTable) (r e : List String) (tf nf : Nat) (d : TokData)
        (cs : List Node) (ss2 : List String) (f g : Frame) (rest : List Frame) (sh : Nat),
        nodeLoop states r e tf nf cs d.path ["root"] [⟨d, []⟩] d.line d.column 0
          = .ok (ss2, f :: g :: rest, sh) →
        tokenizeTop states r e tf nf d cs
          = .error (.compileException f.d.line f.d.column f.d.path
              (f.d.name ++ " not terminated"))) := by
  constructor
  · intro states r e tf nf d cs ss2 f sh h
    unfold tokenizeTop
    rw [h]
    rfl
  · intro states r e tf nf d cs ss2 f g rest sh h
    unfold tokenizeTop
    rw [h]
    rfl

/-- **C8, witness.**  The balanced javascript run `12+3` returns normally
with only the root on the stack; the never-closing grammar leaves `blk`
open and raises `"blk not terminated"` at its start position. -/
theorem claim_C8_witness :
    tokenizeTop jsStates ["Token"] [] 20 5 jsRootData [.str "12+3".toList]
      = .ok (jsRootData,
          [.tok ⟨"js-number", 1, 1, "", "Token", 0⟩ [.str ['1', '2']],
           .tok ⟨"js-operator", 1, 3, "", "Token", 0⟩ [.str ['+']],
           .tok ⟨"js-number", 1, 4, "", "Token", 0⟩ [.str ['3']]])
    ∧ tokenizeTop c8OpenStates [] [] 5 5 c8D [.str ['x']]
      = .error (.compileException 3 4 "q" "blk not terminated") :=
  ⟨claim_C8.1 jsStates ["Token"] [] 20 5 jsRootData [.str "12+3".toList]
      ["after-varname", "root"]
      ⟨jsRootData,
        [.tok ⟨"js-number", 1, 1, "", "Token", 0⟩ [.str ['1', '2']],
         .tok ⟨"js-operator", 1, 3, "", "Token", 0⟩ [.str ['+']],
         .tok ⟨"js-number", 1, 4, "", "Token", 0⟩ [.str ['3']]]⟩
      4 (by rfl),
   claim_C8.2 c8OpenStates [] [] 5 5 c8D [.str ['x']] ["root"]
      ⟨⟨"blk", 3, 4, "q", "Token", 0⟩, []⟩ ⟨c8D, []⟩ [] 1 (by rfl)⟩

theorem findRule_le (rules : List (Pat × List Action)) (rest : List Char)
    (n : Nat) (acts : List Action) (h : findRule rules rest = some (n, acts)) :
    n ≤ rest.length := by
  induction rules with
  | nil => simp [findRule] at h
  | cons rule more ih =>
      obtain ⟨p, as⟩ := rule
      simp only [findRule] at h
      cases hm : matchPat p rest with
      | none => rw [hm] at h; exact ih h
      | some k =>
          rw [hm] at h
          cases h
          exact matchPat_le p rest n hm

/-- Action lists move the cursor exactly as far as they advance the ghost
shift counter, and never past the current match. -/
theorem execActions_delta (path : String) (s : List Char) (acts : List Action)
    (ss : List String) (ts : List Frame) (line column shifted : Nat)
    (content : List Char) (count pos : Nat)
    (ss2 : List String) (ts2 : List Frame) (l2 c2 sh2 pos2 : Nat)
    (h : execActions path s acts ss ts line column shifted content count pos
          = .ok (ss2, ts2, l2, c2, sh2, pos2)) :
    sh2 + pos = shifted + pos2 ∧ pos ≤ pos2 ∧ pos2 ≤ pos + count := by
  induction acts generalizing ss ts line column shifted content count pos with
  | nil =>
      simp only [execActions] at h
      cases h
      omega
  | cons a rest ih =>
      cases a with
      | record v =>
          simp only [execActions, execAction] at h
          cases hp : pushChild ts (.str (recordedText v content)) with
          | error ex =>
              simp only [hp] at h
              exact Except.noConfusion h
          | ok ts3 =>
              simp only [hp] at h
              have := ih _ _ _ _ _ _ _ _ h
              omega
      | shift =>
          simp only [execActions, execAction] at h
          have := ih _ _ _ _ _ _ _ _ h
          omega
      | push st =>
          simp only [execActions, execAction] at h
          have := ih _ _ _ _ _ _ _ _ h
          omega
      | pop =>
          simp only [execActions, execAction] at h
          cases ss with
          | nil => simp at h
          | cons top r =>
              have := ih _ _ _ _ _ _ _ _ h
              omega
      | startToken nm =>
          simp only [execActions, execAction] at h
          have := ih _ _ _ _ _ _ _ _ h
          omega
      | stopToken expected =>
          cases ts with
          | nil => simp [execActions, execAction] at h
          | cons f r =>
              obtain ⟨fd, fcs⟩ := f
              simp only [execActions, execAction] at h
              cases hmm : stopMismatch expected fd.name with
              | true =>
                  rw [hmm] at h
                  simp only [if_pos] at h
                  exact Except.noConfusion h
              | false =>
                  rw [hmm] at h
                  simp only [Bool.false_eq_true, if_neg] at h
                  cases r with
                  | nil =>
                      have h2 : execActions path s rest ss [] line column shifted
                          content count pos = Except.ok (ss2, ts2, l2, c2, sh2, pos2) := h
                      have := ih _ _ _ _ _ _ _ _ h2
                      omega
                  | cons g gs =>
                      obtain ⟨gd, gcs⟩ := g
                      have h2 : execActions path s rest ss
                          (⟨gd, gcs ++ [Node.tok fd fcs]⟩ :: gs) line column shifted
                          content count pos = Except.ok (ss2, ts2, l2, c2, sh2, pos2) := h
                      have := ih _ _ _ _ _ _ _ _ h2
                      omega
      | error msg =>
          simp only [execActions, execAction] at h
          exact Except.noConfusion h

/-- A text run that terminates normally has advanced the ghost shift
counter by exactly the unconsumed length it started with: no residual
text remains. -/
theorem textLoop_consumption (states : StateTable) (path : String) (s : List Char)
    (fuel : Nat) (pos : Nat) (ss : List String) (ts : List Frame)
    (line column shifted : Nat) (ss2 : List String) (ts2 : List Frame)
    (l2 c2 sh2 : Nat)
    (h : textLoop states path s fuel pos ss ts line column shifted
          = .ok (ss2, ts2, l2, c2, sh2))
    (hpos : pos ≤ s.length) :
    sh2 = shifted + (s.length - pos) := by
  induction fuel generalizing pos ss ts line column shifted with
  | zero =>
      simp only [textLoop] at h
      exact Except.noConfusion h
  | succ fuel ih =>
      simp only [textLoop] at h
      by_cases hlt : pos < s.length
      · rw [if_pos hlt] at h
        cases ss with
        | nil => exact Except.noConfusion h
        | cons top r =>
            cases hlk : List.lookup top states with
            | none =>
                simp only [hlk] at h
                exact Except.noConfusion h
            | some rules =>
                simp only [hlk] at h
                cases hfr : findRule rules (s.drop pos) with
                | none =>
                    simp only [hfr] at h
                    exact ih pos (top :: r) ts line column shifted h hpos
                | some res =>
                    obtain ⟨n, acts⟩ := res
                    simp only [hfr] at h
                    cases hex : execActions path s acts (top :: r) ts line column shifted
                        ((s.drop pos).take n) n pos with
                    | error ex =>
                        simp only [hex] at h
                        exact Except.noConfusion h
                    | ok res2 =>
                        obtain ⟨ss3, ts3, l3, c3, sh3, pos3⟩ := res2
                        simp only [hex] at h
                        have hn : n ≤ s.length - pos := by
                          have := findRule_le rules (s.drop pos) n acts hfr
                          simpa using this
                        have hd := execActions_delta path s acts (top :: r) ts line column
                          shifted ((s.drop pos).take n) n pos ss3 ts3 l3 c3 sh3 pos3 hex
                        have hih := ih pos3 ss3 ts3 l3 c3 sh3 h (by omega)
                        omega
      · rw [if_neg hlt] at h
        cases h
        omega

/-- Concatenating a maximal string run preserves the total consumable
text. -/
theorem strRun_total (r e : List String) (l : List Node) :
    (strRun l).1.length + textTotalList r e (strRun l).2 = textTotalList r e l := by
  induction l with
  | nil => simp [strRun, textTotalList]
  | cons n rest ih =>
      cases n with
      | str s =>
          simp only [strRun, textTotalList, textTotalNode]
          have : (strRun rest).1.length + textTotalList r e (strRun rest).2
              = textTotalList r e rest := ih
          simp only [List.length_append]
          omega
      | tok d cs =>
          simp [strRun, textTotalList]

/-- A `tokenize` body run that terminates normally advances the ghost
shift counter by exactly the total raw text of its input: every text
character is consumed by the `Shift` actions, once. -/
theorem nodeLoop_consumption (states : StateTable) (r e : List String) (tfuel : Nat)
    (nfuel : Nat) :
    ∀ (inputs : List Node) (path : String) (ss : List String) (ts : List Frame)
      (line column shifted : Nat) (ss2 : List String) (ts2 : List Frame) (sh2 : Nat),
      nodeLoop states r e tfuel nfuel inputs path ss ts line column shifted
          = .ok (ss2, ts2, sh2) →
      sh2 = shifted + textTotalList r e inputs := by
  induction nfuel with
  | zero =>
      intro inputs path ss ts line column shifted ss2 ts2 sh2 h
      simp only [nodeLoop] at h
      exact Except.noConfusion h
  | succ nfuel ih =>
      intro inputs path ss ts line column shifted ss2 ts2 sh2 h
      match inputs with
      | [] =>
          simp only [nodeLoop] at h
          cases h
          simp [textTotalList]
      | .str s0 :: rest =>
          simp only [nodeLoop] at h
          cases htl : textLoop states path (s0 ++ (strRun rest).1) tfuel 0 ss ts
              line column shifted with
          | error ex =>
              simp only [htl] at h
              exact Except.noConfusion h
          | ok res =>
              obtain ⟨ss3, ts3, l3, c3, sh3⟩ := res
              simp only [htl] at h
              have h1 := textLoop_consumption states path (s0 ++ (strRun rest).1) tfuel 0
                ss ts line column shifted ss3 ts3 l3 c3 sh3 htl (by omega)
              have h2 := ih (strRun rest).2 path ss3 ts3 l3 c3 sh3 ss2 ts2 sh2 h
              have h3 := strRun_total r e rest
              simp only [textTotalList, textTotalNode]
              simp only [List.length_append] at h1
              omega
      | .tok d cs :: rest =>
          simp only [nodeLoop] at h
          by_cases hrep : isInstAny d.cls r
          · rw [if_pos hrep] at h
            cases hin : nodeLoop states r e tfuel nfuel cs d.path ss ts d.line d.column
                shifted with
            | error ex =>
                simp only [hin] at h
                exact Except.noConfusion h
            | ok res =>
                obtain ⟨ss3, ts3, sh3⟩ := res
                simp only [hin] at h
                have h1 := ih cs d.path ss ts d.line d.column shifted ss3 ts3 sh3 hin
                have h2 := ih rest path ss3 ts3 line column sh3 ss2 ts2 sh2 h
                have hcls : textTotalNode r e (.tok d cs) = textTotalList r e cs := by
                  simp only [textTotalNode]
                  rw [if_pos (Or.inl hrep)]
                simp only [textTotalList, hcls]
                omega
          · rw [if_neg hrep] at h
            by_cases hent : isInstAny d.cls e
            · rw [if_pos hent] at h
              cases hin : nodeLoop states r e tfuel nfuel cs d.path ss
                  [⟨d, []⟩] d.line d.column shifted with
              | error ex =>
                  simp only [hin] at h
                  exact Except.noConfusion h
              | ok res =>
                  obtain ⟨ss3, tsChild, sh3⟩ := res
                  simp only [hin] at h
                  cases hpc : pushChild ts (collapse d tsChild) with
                  | error ex =>
                      simp only [hpc] at h
                      exact Except.noConfusion h
                  | ok ts4 =>
                      simp only [hpc] at h
                      have h1 := ih cs d.path ss [⟨d, []⟩] d.line d.column shifted
                        ss3 tsChild sh3 hin
                      have h2 := ih rest path ss3 ts4 line column sh3 ss2 ts2 sh2 h
                      have hcls : textTotalNode r e (.tok d cs) = textTotalList r e cs := by
                        simp only [textTotalNode]
                        rw [if_pos (Or.inr hent)]
                      simp only [textTotalList, hcls]
                      omega
            · rw [if_neg hent] at h
              cases hpc : pushChild ts (.tok d cs) with
              | error ex =>
                  simp only [hpc] at h
                  exact Except.noConfusion h
              | ok ts4 =>
                  simp only [hpc] at h
                  have h2 := ih rest path ss ts4 line column shifted ss2 ts2 sh2 h
                  have hcls : textTotalNode r e (.tok d cs) = 0 := by
                    simp only [textTotalNode]
                    rw [if_neg]
                    simp [hrep, hent]
                  simp only [textTotalList, hcls]
                  omega

/-- On input `y`, no rule of the stuck grammar's `root` state matches:
the scan loop re-tries the same position forever — it exhausts any fuel
without raising anything. -/
theorem c2_stuck_spins (fuel : Nat) :
    textLoop c2StuckStates "r" ['y'] fuel 0 ["root"] [⟨c2D, []⟩] 1 1 0
      = .error .outOfFuel := by
  induction fuel with
  | zero => rfl
  | succ fuel ih => exact ih

/-- **C2, counterexample.**  A top-level `tokenize` call on input with
unconsumed text that no rule of the active state matches does not
terminate with a fatal parser error — the scan loop never advances and
never raises (the run only ends by exhausting its fuel). -/
theorem claim_C2_counterexample :
    tokenizeTop c2StuckStates [] [] 30 5 c2D [.str ['y']] = .error .outOfFuel :=
  rfl

/-- **C2, amended.**  For every run of the `tokenize` body that
terminates normally, the sum of the cursor advances performed by `Shift`
actions (the ghost counter) equals the total length of the raw-text
input, counting the text inside children the engine recurses into —
no unconsumed text remains.  But when no rule of the active state matches
the remaining input, `tokenize` does not raise a fatal parser error: the
scan loop retries the same position forever (the run ends only by fuel
exhaustion, for every fuel). -/
theorem claim_C2 :
    (∀ (states : StateTable) (r e : List String) (tfuel nfuel : Nat)
        (inputs : List Node) (path : String) (ss : List String) (ts : List Frame)
        (line column shifted : Nat) (ss2 : List String) (ts2 : List Frame) (sh2 : Nat),
        nodeLoop states r e tfuel nfuel inputs path ss ts line column shifted
            = .ok (ss2, ts2, sh2) →
        sh2 = shifted + textTotalList r e inputs)
    ∧ (∀ fuel : Nat,
        textLoop c2StuckStates "r" ['y'] fuel 0 ["root"] [⟨c2D, []⟩] 1 1 0
          = .error .outOfFuel) :=
  ⟨fun states r e tfuel nfuel => nodeLoop_consumption states r e tfuel nfuel,
   c2_stuck_spins⟩

/-- **C2, witness.**  The `12+3` run consumes exactly its four input
characters by `Shift`s, and the stuck grammar exhausts a budget of six
scan steps without raising. -/
theorem claim_C2_witness :
    (4 : Nat) = 0 + textTotalList ["Token"] [] [.str "12+3".toList]
    ∧ textLoop c2StuckStates "r" ['y'] 6 0 ["root"] [⟨c2D, []⟩] 1 1 0
        = .error .outOfFuel :=
  ⟨claim_C2.1 jsStates ["Token"] [] 20 5 [.str "12+3".toList] "" ["root"]
      [⟨jsRootData, []⟩] 1 1 0 ["after-varname", "root"]
      [⟨jsRootData,
        [.tok ⟨"js-number", 1, 1, "", "Token", 0⟩ [.str ['1', '2']],
         .tok ⟨"js-operator", 1, 3, "", "Token", 0⟩ [.str ['+']],
         .tok ⟨"js-number", 1, 4, "", "Token", 0⟩ [.str ['3']]]⟩]
      4 (by rfl),
   claim_C2.2 6⟩

/-! ## Claim C10: keywords versus identifiers in the javascript grammar -/

theorem identStart_isTail (c : Char) (h : identStartChar c = true) :
    identTailChar c = true := by
  simp [identTailChar, h]

theorem identTail_not_ws (c : Char) (h : identTailChar c = true) (hm : c ∈ wsChars) :
    False := by
  fin_cases hm <;> simp [identTailChar, identStartChar] at h

theorem identTail_ne_nl (c : Char) (h : identTailChar c = true) : c ≠ '\n' := by
  intro hc
  subst hc
  simp [identTailChar, identStartChar] at h

theorem identStart_notin_op (c : Char) (h : identStartChar c = true)
    (hm : c ∈ jsOpChars) : False := by
  fin_cases hm <;> simp [identStartChar] at h

theorem identStart_notin_close (c : Char) (h : identStartChar c = true)
    (hm : c ∈ [')', ']']) : False := by
  fin_cases hm <;> simp [identStartChar] at h

theorem identStart_ne (c : Char) (h : identStartChar c = true) :
    c ≠ '\x7b' ∧ c ≠ '\x7d' ∧ c ≠ '/' ∧ c ≠ '"' ∧ c ≠ sqChar := by
  refine ⟨?_, ?_, ?_, ?_, ?_⟩ <;> intro hc <;> subst hc <;>
    simp [identStartChar, sqChar] at h

theorem takeWhile_all (p : Char → Bool) (l : List Char) (h : ∀ c ∈ l, p c = true) :
    l.takeWhile p = l := by
  induction l with
  | nil => simp
  | cons c rest ih =>
      simp only [List.takeWhile, h c (by simp)]
      rw [ih (fun x hx => h x (by simp [hx]))]

theorem takeWhile_none_head (p : Char → Bool) (c : Char) (cs : List Char)
    (h : p c = false) : (c :: cs).takeWhile p = [] := by
  simp [List.takeWhile, h]

/-- `nlCount` of identifier text is zero. -/
theorem nlCount_ident (s : List Char) (h : ∀ ch ∈ s, identTailChar ch = true) :
    nlCount s = 0 := by
  simp only [nlCount, List.length_eq_zero, List.filter_eq_nil_iff]
  intro ch hch
  simpa using identTail_ne_nl ch (h ch hch)

/-- `afterLastNl` of identifier text is the text itself. -/
theorem afterLastNl_ident (s : List Char) (h : ∀ ch ∈ s, identTailChar ch = true) :
    afterLastNl s = s := by
  unfold afterLastNl
  rw [takeWhile_all _ _ (fun ch hch => by
    simp only [decide_eq_true_eq]
    exact identTail_ne_nl ch (h ch (List.mem_reverse.mp hch)))]
  exact List.reverse_reverse s

/-- Part one of the keyword property: whenever the keyword alternation
matches, the consumed prefix is one of the alternatives and the following
character (if any) is not an identifier character. -/
theorem matchKwAlt_boundary (alts : List (List Char)) (s : List Char) (n : Nat)
    (h : matchKwAlt alts s = some n) :
    s.take n ∈ alts ∧ (s.drop n).head?.all (fun ch => ¬ identTailChar ch) := by
  induction alts with
  | nil => simp [matchKwAlt] at h
  | cons k rest ih =>
      unfold matchKwAlt at h
      split at h
      · rename_i hc
        cases h
        obtain ⟨hpre, hrest⟩ := hc
        have hk : s.take k.length = k :=
          ((List.prefix_iff_eq_take.mp (List.isPrefixOf_iff_prefix.mp hpre))).symm
        constructor
        · rw [hk]; exact List.mem_cons_self _ _
        · rcases hrest with hlen | hall
          · rw [← hlen, List.drop_length]
            simp
          · exact hall
      · obtain ⟨h1, h2⟩ := ih h
        exact ⟨List.mem_cons_of_mem _ h1, h2⟩

/-- On a non-keyword identifier the keyword alternation fails: any
alternative that is a prefix either equals the whole input (excluded) or
is followed by a further identifier character. -/
theorem matchKwAlt_ident_none (alts : List (List Char)) (s : List Char)
    (h2 : ∀ ch ∈ s, identTailChar ch = true) (h3 : s ∉ alts) :
    matchKwAlt alts s = none := by
  induction alts with
  | nil => rfl
  | cons k rest ih =>
      unfold matchKwAlt
      have hknot : ¬ (k.isPrefixOf s ∧
          (s.length = k.length ∨ (s.drop k.length).head?.all (fun c => ¬ identTailChar c))) := by
        rintro ⟨hpre, hrest⟩
        have hpre2 := List.isPrefixOf_iff_prefix.mp hpre
        rcases hrest with hlen | hall
        · exact h3 (by
            have : k = s := List.IsPrefix.eq_of_length hpre2 hlen.symm
            rw [this]
            exact List.mem_cons_self _ _)
        · have hklen : k.length < s.length := by
            have hle := hpre2.length_le
            rcases Nat.lt_or_ge k.length s.length with hlt | hge
            · exact hlt
            · have : k.length = s.length := le_antisymm hle hge
              exact absurd (List.IsPrefix.eq_of_length hpre2 this)
                (fun hh => h3 (hh ▸ List.mem_cons_self _ _))
          obtain ⟨ch, hch⟩ : ∃ ch, (s.drop k.length).head? = some ch := by
            cases hd : (s.drop k.length).head? with
            | none =>
                exfalso
                rw [List.head?_eq_none_iff] at hd
                have := congrArg List.length hd
                simp at this
                omega
            | some ch => exact ⟨ch, rfl⟩
          rw [hch] at hall
          simp only [Option.all_some, decide_eq_true_eq] at hall
          have hmem : ch ∈ s := by
            have : ch ∈ s.drop k.length := by
              cases hdd : s.drop k.length with
              | nil => rw [hdd] at hch; simp at hch
              | cons x xs =>
                  rw [hdd] at hch
                  simp only [List.head?_cons, Option.some.injEq] at hch
                  subst hch
                  exact List.mem_cons_self _ _
            exact List.mem_of_mem_drop this
          exact hall (h2 ch hmem)
      rw [if_neg hknot]
      exact ih (fun hm => h3 (List.mem_cons_of_mem _ hm))

theorem seqWsFail (p : Pat) (rest2 : List Pat) (s : List Char)
    (hws : matchPat .wsStar s = some 0) (hp : matchPat p s = none) :
    matchPat (.seq (Pat.wsStar :: p :: rest2)) s = none := by
  show matchSeq (Pat.wsStar :: p :: rest2) s = none
  simp only [matchSeq, hws, List.drop_zero, hp]

theorem jsRoot_findRule_ident (c : Char) (cs : List Char)
    (h1 : identStartChar c = true)
    (h2 : ∀ ch ∈ c :: cs, identTailChar ch = true)
    (h3 : (c :: cs) ∉ jsKeywordAlts) :
    findRule jsRootRules (c :: cs)
      = some ((c :: cs).length,
          [.startToken "js-varname", .record none, .shift, .stopToken none,
           .push "after-varname"]) := by
  have hne := identStart_ne c h1
  have hcw : (decide (c ∈ wsChars)) = false := by
    simp only [decide_eq_false_iff_not]
    exact fun hm => identTail_not_ws c (identStart_isTail c h1) hm
  have hwz : matchPat .wsStar (c :: cs) = some 0 := by
    have ht : List.takeWhile (fun x => decide (x ∈ wsChars)) (c :: cs) = [] :=
      takeWhile_none_head _ c cs (by simpa using hcw)
    simp only [matchPat, ht, List.length_nil]
  have hlitne : ∀ (x : Char) (l : List Char), x ≠ c →
      matchPat (.lit (x :: l)) (c :: cs) = none := by
    intro x l hx
    have : (x :: l).isPrefixOf (c :: cs) = false := by
      simp [List.isPrefixOf, hx]
    simp [matchPat, this]
  have honeOf : ∀ l : List Char, c ∉ l → matchPat (.oneOf l) (c :: cs) = none := by
    intro l hm
    simp only [matchPat]
    rw [if_neg hm]
  have hR1 : matchPat (.seq [.wsStar, .lit ['\x7b'], .wsStar]) (c :: cs) = none :=
    seqWsFail _ _ _ hwz (hlitne '\x7b' [] (fun hh => hne.1 hh.symm))
  have hR2 : matchPat (.seq [.wsStar, .lit ['\x7d'], .wsStar]) (c :: cs) = none :=
    seqWsFail _ _ _ hwz (hlitne '\x7d' [] (fun hh => hne.2.1 hh.symm))
  have hR3 : matchPat (.lit ['/', '*']) (c :: cs) = none :=
    hlitne '/' ['*'] (fun hh => hne.2.2.1 hh.symm)
  have hR4 : matchPat (.lit ['/', '/']) (c :: cs) = none :=
    hlitne '/' ['/'] (fun hh => hne.2.2.1 hh.symm)
  have hR5 : matchPat (.lit ['"']) (c :: cs) = none :=
    hlitne '"' [] (fun hh => hne.2.2.2.1 hh.symm)
  have hR6 : matchPat (.lit [sqChar]) (c :: cs) = none :=
    hlitne sqChar [] (fun hh => hne.2.2.2.2 hh.symm)
  have hR7 : matchPat (.kwAlt jsKeywordAlts) (c :: cs) = none := by
    show matchKwAlt jsKeywordAlts (c :: cs) = none
    exact matchKwAlt_ident_none jsKeywordAlts (c :: cs) h2 h3
  have hR8 : matchPat (.seq [.wsStar, .oneOf jsOpChars, .wsStar]) (c :: cs) = none :=
    seqWsFail _ _ _ hwz (honeOf jsOpChars (fun hm => identStart_notin_op c h1 hm))
  have hR9 : matchPat (.seq [.wsStar, .oneOf [')', ']'], .wsStar]) (c :: cs) = none :=
    seqWsFail _ _ _ hwz (honeOf [')', ']'] (fun hm => identStart_notin_close c h1 hm))
  have hR10 : matchPat .jsIdent (c :: cs) = some (1 + cs.length) := by
    simp only [matchPat, h1, if_pos,
      takeWhile_all identTailChar cs (fun x hx => h2 x (by simp [hx]))]
  simp only [jsRootRules, findRule, hR1, hR2, hR3, hR4, hR5, hR6, hR7, hR8, hR9, hR10,
    List.length_cons]
  rw [Nat.add_comm]

theorem jsTokenize_ident_run (c : Char) (cs : List Char)
    (h1 : identStartChar c = true)
    (h2 : ∀ ch ∈ c :: cs, identTailChar ch = true)
    (h3 : (c :: cs) ∉ jsKeywordAlts) :
    jsTokenize 2 2 (c :: cs)
      = .ok (jsRootData,
          [.tok ⟨"js-varname", 1, 1, "", "Token", 0⟩ [.str (c :: cs)]]) := by
  have hFR := jsRoot_findRule_ident c cs h1 h2 h3
  have hnl : nlCount (c :: cs) = 0 := nlCount_ident _ h2
  have hEA : execActions "" (c :: cs)
      [.startToken "js-varname", .record none, .shift, .stopToken none,
       .push "after-varname"]
      ["root"] [⟨jsRootData, []⟩] 1 1 0 (c :: cs) (c :: cs).length 0
      = .ok (["after-varname", "root"],
          [⟨jsRootData, [.tok ⟨"js-varname", 1, 1, "", "Token", 0⟩ [.str (c :: cs)]]⟩],
          1, 1 + (c :: cs).length, (c :: cs).length, (c :: cs).length) := by
    simp [execActions, execAction, pushChild, recordedText, stopMismatch, hnl,
      pure, Except.pure]
  have hlook : jsStates.lookup "root" = some jsRootRules := rfl
  have hpos1 : (0 < (c :: cs).length) = True := by simp
  have hpos2 : ((c :: cs).length < (c :: cs).length) = False := by simp
  have hTL : textLoop jsStates "" (c :: cs) 2 0 ["root"] [⟨jsRootData, []⟩] 1 1 0
      = .ok (["after-varname", "root"],
          [⟨jsRootData, [.tok ⟨"js-varname", 1, 1, "", "Token", 0⟩ [.str (c :: cs)]]⟩],
          1, 1 + (c :: cs).length, (c :: cs).length) := by
    simp only [textLoop, hpos1, hpos2, if_true, if_false, hlook,
      List.drop_zero, List.take_length, hFR, hEA]
  have hNL : nodeLoop jsStates ["Token"] [] 2 2 [.str (c :: cs)] "" ["root"]
      [⟨jsRootData, []⟩] 1 1 0
      = .ok (["after-varname", "root"],
          [⟨jsRootData, [.tok ⟨"js-varname", 1, 1, "", "Token", 0⟩ [.str (c :: cs)]]⟩],
          (c :: cs).length) := by
    simp only [nodeLoop, strRun, List.append_nil, hTL]
  have hdp : jsRootData.path = "" := rfl
  have hdl : jsRootData.line = 1 := rfl
  have hdc : jsRootData.column = 1 := rfl
  simp only [jsTokenize, tokenizeTop, hdp, hdl, hdc, bind, Except.bind, hNL, pure,
    Except.pure]

/-- C10: in the embedded javascript grammar the keyword alternation (the
`js-keyword` transition) succeeds only when the matched reserved word is
followed by no identifier character (letter, digit, underscore or dollar
sign); and any identifier that is not itself a reserved word — in
particular one that merely begins with one, such as `variable` or `iffy`
— is tokenized as a single `js-varname` token covering the whole
identifier, never a keyword token followed by a remainder. -/
theorem claim_C10 (c : Char) (cs : List Char)
    (h1 : identStartChar c = true)
    (h2 : ∀ ch ∈ c :: cs, identTailChar ch = true)
    (h3 : (c :: cs) ∉ jsKeywordAlts) :
    (∀ (s : List Char) (n : Nat), matchKwAlt jsKeywordAlts s = some n →
        s.take n ∈ jsKeywordAlts ∧
        (s.drop n).head?.all (fun ch => ¬ identTailChar ch)) ∧
    jsTokenize 2 2 (c :: cs)
      = .ok (jsRootData,
          [.tok ⟨"js-varname", 1, 1, "", "Token", 0⟩ [.str (c :: cs)]]) :=
  ⟨fun s n h => matchKwAlt_boundary jsKeywordAlts s n h,
   jsTokenize_ident_run c cs h1 h2 h3⟩

theorem claim_C10_witness :
    jsTokenize 2 2 "variable".toList
      = .ok (jsRootData,
          [.tok ⟨"js-varname", 1, 1, "", "Token", 0⟩ [.str "variable".toList]]) :=
  (claim_C10 (Char.ofNat 118) "ariable".toList (by decide) (by decide) (by decide)).2

end TPP
